import Mathlib

/-!
TrainFresh: access gate (server.js) and status simulator (app.js).

A shallow embedding of the two source files.  JavaScript strings are lists of
characters, JavaScript objects used as string-keyed maps are association lists
in insertion order, and the mutable globals and DOM nodes of the client are the
fields of one state record that every function takes and returns.
-/

namespace TrainFresh

/-- A JavaScript string, as the list of its characters. -/
abbrev Str := List Char

/-! ## String primitives used by the source -/

/-- The characters removed by `String.prototype.trim`: ECMAScript WhiteSpace and
LineTerminator code points. -/
def isJsSpace (c : Char) : Bool :=
  let n := c.toNat
  n == 0x09 || n == 0x0A || n == 0x0B || n == 0x0C || n == 0x0D || n == 0x20 ||
  n == 0xA0 || n == 0x1680 || (0x2000 ≤ n && n ≤ 0x200A) || n == 0x2028 ||
  n == 0x2029 || n == 0x202F || n == 0x205F || n == 0x3000 || n == 0xFEFF

/-- The method `trimStart`. -/
def trimStart (s : Str) : Str := s.dropWhile isJsSpace

/-- The method `trimEnd`. -/
def trimEnd (s : Str) : Str := (s.reverse.dropWhile isJsSpace).reverse

/-- The method `trim`: white space removed from both ends. -/
def trim (s : Str) : Str := trimEnd (trimStart s)

/-- The call `s.split(sep)` for a one-character separator: the pieces between
the occurrences of `sep`; the empty string splits into one empty piece. -/
def split (sep : Char) : Str → List Str
  | [] => [[]]
  | c :: cs =>
    if c = sep then [] :: split sep cs
    else
      match split sep cs with
      | [] => [[c]]
      | p :: ps => (c :: p) :: ps

/-- The call `parts.join(sep)` for a one-character separator. -/
def join (sep : Char) : List Str → Str
  | [] => []
  | [p] => p
  | p :: q :: rest => p ++ sep :: join sep (q :: rest)

/-! ## Objects used as maps -/

/-- The own string-valued properties of an object literal that started as
`\x7b\x7d`, in insertion order.  The source only ever reads them by key. -/
abbrev Obj (α : Type) := List (Str × α)

/-- The read `o[k]`: `none` stands for `undefined`. -/
def Obj.get {α : Type} (o : Obj α) (k : Str) : Option α :=
  match o with
  | [] => none
  | (k', v) :: rest => if k' = k then some v else Obj.get rest k

/-- The property name `__proto__`. -/
def protoKey : Str := "__proto__".toList

/-- Replace the value stored under an existing key. -/
def Obj.replace {α : Type} (o : Obj α) (k : Str) (v : α) : Obj α :=
  o.map (fun kv => if kv.1 = k then (k, v) else kv)

/-- The assignment `o[k] = v` of a string (or array) value: an existing key keeps
its place, a new key is appended, and assigning a non-object to `__proto__` does
nothing. -/
def Obj.set {α : Type} (o : Obj α) (k : Str) (v : α) : Obj α :=
  if k = protoKey then o
  else if (o.get k).isSome then o.replace k v
  else o ++ [(k, v)]

/-! ## server.js -/

/-- The constant `SECRET_TOKEN`. -/
def SECRET_TOKEN : Str := "trainfresh2026".toList

/-- The part of a request the gate reads: `req.headers.cookie`, `none` when the
header is absent. -/
structure Request where
  cookie : Option Str

/-- One iteration of the `forEach` in `parseCookies`: the pair is trimmed and
split on `=`, the first piece is the name, the other pieces are joined back
with `=`; both are trimmed before the assignment.  (`split` never returns the
empty array, so the first branch is never taken.) -/
def parseCookiePair (list : Obj Str) (cookie : Str) : Obj Str :=
  match split '=' (trim cookie) with
  | [] => list
  | name :: rest => list.set (trim name) (trim (join '=' rest))

/-- The function `parseCookies`. -/
def parseCookies (req : Request) : Obj Str :=
  match req.cookie with
  | none => []
  | some header =>
    if header = [] then []
    else (split ';' header).foldl parseCookiePair []

/-- The bodies the server sends, named by the expression that produces them. -/
inductive Body where
  /-- The document returned by `accessDeniedHTML()`. -/
  | accessDeniedHTML
  /-- The literal `<h3>Invalid or expired QR code.</h3>`. -/
  | invalidQR
  /-- The body Express writes for `res.redirect`. -/
  | redirect
  deriving DecidableEq, Repr

/-- What a handler does with a request: hand it on with `next()`, or answer. -/
inductive Outcome where
  | next
  | send (status : Nat) (setCookie : Option Str) (location : Option Str) (body : Body)
  deriving DecidableEq, Repr

/-- The middleware `requireAuth`. -/
def requireAuth (req : Request) : Outcome :=
  let cookies := parseCookies req
  if cookies.get "tf_session".toList = some SECRET_TOKEN then .next
  else .send 403 none none .accessDeniedHTML

/-- The handler of `GET /access/:token`, as a function of `req.params.token`.
`res.redirect('/')` answers 302 with `Location: /`. -/
def accessRoute (token : Str) : Outcome :=
  if token = SECRET_TOKEN then
    .send 302
      (some ("tf_session=".toList ++ SECRET_TOKEN ++ "; HttpOnly; Max-Age=3600; Path=/".toList))
      (some "/".toList) .redirect
  else .send 403 none none .invalidQR

/-! ## app.js: catalog and data -/

/-- A value of `TRAIN_DB`. -/
structure TrainInfo where
  name : Str
  route : Str
  deriving DecidableEq, Repr

/-- The constant `TRAIN_DB`, with the string literals as they stand in the file. -/
def TRAIN_DB : Obj TrainInfo :=
  [ ("12301".toList, ⟨"Howrah Rajdhani".toList, "Howrah â†’ New Delhi".toList⟩),
    ("12951".toList, ⟨"Mumbai Rajdhani".toList, "Mumbai Central â†’ New Delhi".toList⟩),
    ("12628".toList, ⟨"Karnataka Exp".toList, "Bengaluru â†’ New Delhi".toList⟩),
    ("12345".toList, ⟨"Rajdhani Express".toList, "Patna â†’ New Delhi".toList⟩),
    ("11057".toList, ⟨"Devagiri Express".toList, "Mumbai CST â†’ Manmad".toList⟩),
    ("22691".toList, ⟨"Rajdhani Express".toList, "Bengaluru â†’ Hazrat Nizamuddin".toList⟩) ]

/-- An element of `COACHES`. -/
structure Coach where
  id : Str
  label : Str
  deriving DecidableEq, Repr

/-- The constant `COACHES`. -/
def COACHES : List Coach :=
  [ ⟨"H1".toList, "H1 Â· AC 1st Class".toList⟩,
    ⟨"A1".toList, "A1 Â· AC 2 Tier".toList⟩,
    ⟨"A2".toList, "A2 Â· AC 2 Tier".toList⟩,
    ⟨"B1".toList, "B1 Â· AC 3 Tier".toList⟩,
    ⟨"B2".toList, "B2 Â· AC 3 Tier".toList⟩,
    ⟨"B3".toList, "B3 Â· AC 3 Tier".toList⟩,
    ⟨"S1".toList, "S1 Â· Sleeper".toList⟩,
    ⟨"S2".toList, "S2 Â· Sleeper".toList⟩,
    ⟨"S3".toList, "S3 Â· Sleeper".toList⟩,
    ⟨"PAN".toList, "Pantry Car".toList⟩ ]

/-- The constant `TYPES`. -/
def TYPES : List Str := ["Western".toList, "Indian".toList]

/-- The status literal `'vacant'`. -/
def vacant : Str := "vacant".toList

/-- The status literal `'occupied'`. -/
def occupied : Str := "occupied".toList

/-- The random source: the value returned by the `n`-th call of `Math.random()`
since the page was loaded, as a rational.  The source only compares a draw with
a constant; nothing proved below depends on how a comparison comes out. -/
abbrev Random := Nat → ℚ

/-- A toilet record. -/
structure Toilet where
  id : Str
  type : Str
  status : Str
  deriving DecidableEq, Repr

/-- The mapper passed to `Array.from` in `generateToilets`, for index `i`, when
`draws` calls of `Math.random()` have been made before. -/
def newToilet (rnd : Random) (coachId : Str) (i draws : Nat) : Toilet :=
  { id := coachId ++ "-T".toList ++ (Nat.repr (i + 1)).toList
    type := TYPES.getD (i % TYPES.length) []
    status := if rnd draws < 0.6 then vacant else occupied }

/-- The call `Array.from(\x7blength: count\x7d, mapper)`: the mapper runs for
`i = 0 .. count - 1` in order, one draw each. -/
def arrayFrom (rnd : Random) (coachId : Str) (count draws : Nat) : List Toilet × Nat :=
  (List.range count).foldl
    (fun acc i => (acc.1 ++ [newToilet rnd coachId i acc.2], acc.2 + 1)) ([], draws)

/-- The function `generateToilets`, returning the data and the number of draws
made so far. -/
def generateToilets (rnd : Random) (draws : Nat) : Obj (List Toilet) × Nat :=
  COACHES.foldl
    (fun acc coach =>
      let count := if coach.id = "PAN".toList then 1 else 2
      let made := arrayFrom rnd coach.id count acc.2
      (acc.1.set coach.id made.1, made.2))
    ([], draws)

/-! ## app.js: state -/

/-- The value of `currentTrain`. -/
structure Train where
  no : Str
  name : Str
  route : Str
  deriving DecidableEq, Repr

/-- Which callback a timer registered with the event loop runs. -/
inductive TimerKind where
  /-- The interval of `startClock`, running `tick`. -/
  | clock
  /-- The interval of `startCountdown`. -/
  | countdown
  /-- The timeout of `showToast`. -/
  | toast
  deriving DecidableEq, Repr

/-- An active timer: the handle `setInterval` or `setTimeout` returned, and what
it runs. -/
structure Timer where
  handle : Nat
  kind : TimerKind
  deriving DecidableEq, Repr

/-- A tile built by `renderStatus`: its class name and the interpolated parts of
its inner HTML. -/
structure Tile where
  className : Str
  icon : Str
  id : Str
  type : Str
  badge : Str
  deriving DecidableEq, Repr

/-- A coach section appended to `coachesScroll`. -/
structure CoachSection where
  label : Str
  tiles : List Tile
  deriving DecidableEq, Repr

/-- The mutable globals of app.js, the DOM properties it writes, and the event
loop's timer table.  The text of `headerTime` comes from the wall clock and is
left out; `window.scrollTo` and `focus` have no effect on these fields. -/
structure Sim where
  toiletData : Obj (List Toilet)
  currentTrain : Option Train
  countdownVal : Int
  countdownTimer : Option Nat
  screenEntryHidden : Bool
  screenStatusHidden : Bool
  trainInputValue : Str
  trainInputError : Bool
  inputHint : Str
  headerTrainName : Str
  summaryVacant : Nat
  summaryOccupied : Nat
  coachesScroll : List CoachSection
  countdownEl : Int
  toastText : Str
  toastShow : Bool
  timers : List Timer
  nextHandle : Nat
  draws : Nat
  deriving DecidableEq, Repr

/-- The state when the script has been loaded: handles start at 1. -/
def Sim.init : Sim :=
  { toiletData := []
    currentTrain := none
    countdownVal := 30
    countdownTimer := none
    screenEntryHidden := false
    screenStatusHidden := true
    trainInputValue := []
    trainInputError := false
    inputHint := []
    headerTrainName := []
    summaryVacant := 0
    summaryOccupied := 0
    coachesScroll := []
    countdownEl := 30
    toastText := []
    toastShow := false
    timers := []
    nextHandle := 1
    draws := 0 }

/-- The calls `setInterval(f, ms)` and `setTimeout(f, ms)`: a fresh handle is
registered; the caller decides whether to keep it. -/
def setTimer (kind : TimerKind) (st : Sim) : Sim :=
  { st with timers := st.timers ++ [⟨st.nextHandle, kind⟩], nextHandle := st.nextHandle + 1 }

/-- The call `clearInterval(h)`. -/
def clearInterval (h : Nat) (st : Sim) : Sim :=
  { st with timers := st.timers.filter (fun t => t.handle ≠ h) }

/-! ## app.js: functions -/

/-- The function `startClock`: `tick()` and `setInterval(tick, 1000)`; the
handle is dropped. -/
def startClock (st : Sim) : Sim := setTimer .clock st

/-- The function `showToast`. -/
def showToast (msg : Str) (st : Sim) : Sim :=
  setTimer .toast { st with toastText := msg, toastShow := true }

/-- The tile `renderStatus` builds for one toilet. -/
def mkTile (t : Toilet) : Tile :=
  { className := "toilet-tile ".toList ++ t.status
    icon := if t.type = "Western".toList then "ðŸš½".toList
            else "ðŸª£".toList
    id := t.id
    type := t.type
    badge := if t.status = vacant then "Vacant".toList else "Occupied".toList }

/-- The first loop of `renderStatus`: the two counters after all coaches. -/
def summaryCounts (data : Obj (List Toilet)) : Nat × Nat :=
  COACHES.foldl
    (fun acc coach =>
      ((data.get coach.id).getD []).foldl
        (fun a t => if t.status = vacant then (a.1 + 1, a.2) else (a.1, a.2 + 1)) acc)
    (0, 0)

/-- The second loop of `renderStatus`: the children of `coachesScroll`. -/
def coachSections (data : Obj (List Toilet)) : List CoachSection :=
  COACHES.foldl
    (fun acc coach =>
      let toilets := (data.get coach.id).getD []
      if toilets.length = 0 then acc
      else acc ++ [⟨coach.label, toilets.foldl (fun tiles t => tiles ++ [mkTile t]) []⟩])
    []

/-- The function `renderStatus`. -/
def renderStatus (st : Sim) : Sim :=
  let counts := summaryCounts st.toiletData
  { st with
    summaryVacant := counts.1
    summaryOccupied := counts.2
    coachesScroll := coachSections st.toiletData }

/-- The inner loop of `refreshStatuses` over one coach's toilets, which are
changed in place: one draw per toilet. -/
def flipToilets (rnd : Random) (ts : List Toilet) (draws : Nat) : List Toilet × Nat :=
  ts.foldl
    (fun acc t =>
      (acc.1 ++ [if rnd acc.2 < 0.2 then
          { t with status := if t.status = vacant then occupied else vacant } else t],
       acc.2 + 1))
    ([], draws)

/-- The outer loop of `refreshStatuses`. -/
def flipAll (rnd : Random) (data : Obj (List Toilet)) (draws : Nat) :
    Obj (List Toilet) × Nat :=
  COACHES.foldl
    (fun acc coach =>
      match acc.1.get coach.id with
      | none => acc
      | some ts =>
        let flipped := flipToilets rnd ts acc.2
        (acc.1.replace coach.id flipped.1, flipped.2))
    (data, draws)

/-- The function `refreshStatuses`. -/
def refreshStatuses (rnd : Random) (st : Sim) : Sim :=
  let r := flipAll rnd st.toiletData st.draws
  showToast "ðŸ“¡ Status updated from sensors".toList
    (renderStatus { st with toiletData := r.1, draws := r.2 })

/-- The callback `startCountdown` passes to `setInterval`. -/
def countdownTick (rnd : Random) (st : Sim) : Sim :=
  let st1 := { st with countdownVal := st.countdownVal - 1 }
  let st2 := { st1 with countdownEl := st1.countdownVal }
  if st2.countdownVal ≤ 0 then refreshStatuses rnd { st2 with countdownVal := 30 }
  else st2

/-- The guard `if (countdownTimer) clearInterval(countdownTimer)`: `null` and
`0` are falsy. -/
def clearCountdownTimer (st : Sim) : Sim :=
  match st.countdownTimer with
  | none => st
  | some h => if h = 0 then st else clearInterval h st

/-- The function `startCountdown`. -/
def startCountdown (st : Sim) : Sim :=
  let st1 := clearCountdownTimer st
  let st2 := { st1 with countdownVal := 30, countdownEl := 30 }
  { setTimer .countdown st2 with countdownTimer := some st2.nextHandle }

/-- The function `stopCountdown`. -/
def stopCountdown (st : Sim) : Sim :=
  { clearCountdownTimer st with countdownTimer := none }

/-- The function `goToStatus`.  `TRAIN_DB[trainNo]` is read among the six own
keys of the literal; the names an object literal inherits (`constructor`,
`toString`, ...) are outside this reading, and none of them is a string of
digits. -/
def goToStatus (rnd : Random) (trainNo : Str) (st : Sim) : Sim :=
  let info : TrainInfo := (TRAIN_DB.get trainNo).getD ⟨"Train ".toList ++ trainNo, []⟩
  let made := generateToilets rnd st.draws
  let st1 :=
    { st with
      currentTrain := some ⟨trainNo, info.name, info.route⟩
      toiletData := made.1
      draws := made.2
      headerTrainName := trainNo ++ " Â· ".toList ++ info.name
      screenEntryHidden := true
      screenStatusHidden := false }
  showToast ("âœ… Loaded live status for Train ".toList ++ trainNo)
    (startCountdown (startClock (renderStatus st1)))

/-- The function `goBack`. -/
def goBack (st : Sim) : Sim :=
  let st1 := stopCountdown { st with screenStatusHidden := true, screenEntryHidden := false }
  { st1 with trainInputValue := [], inputHint := [], trainInputError := false }

/-- The class `\d`. -/
def isDigit (c : Char) : Bool := 48 ≤ c.toNat && c.toNat ≤ 57

/-- The quantifier `p\x7blo,hi\x7d` over a character class: the inputs left after
each way of matching between `lo` and `hi` characters of the class at the front
of `s`, longest match first. -/
def matchRepeat (p : Char → Bool) : Nat → Nat → Str → List Str
  | lo, 0, s => if lo = 0 then [s] else []
  | lo, hi + 1, s =>
    (match s with
      | [] => []
      | c :: cs => if p c then matchRepeat p (lo - 1) hi cs else []) ++
    (if lo = 0 then [s] else [])

/-- The test `/^\d\x7b4,5\x7d$/.test(s)`: anchored at the start, 4 to 5 digits, then
the end of the input. -/
def trainNoPattern (s : Str) : Bool :=
  (matchRepeat isDigit 4 5 s).any (fun r => r.isEmpty)

/-- The function `handleSearch`, reading `trainInput.value` from the state. -/
def handleSearch (rnd : Random) (st : Sim) : Sim :=
  let val := trim st.trainInputValue
  if val = [] then
    { st with inputHint := "Please enter a train number.".toList, trainInputError := true }
  else if !trainNoPattern val then
    { st with
      inputHint := "Train number must be 4â€“5 digits.".toList
      trainInputError := true }
  else
    goToStatus rnd val { st with inputHint := [], trainInputError := false }

/-! ## The event loop -/

/-- What can happen on the status simulator: a train is selected, the back
button is pressed, or the timer with a given handle comes due. -/
inductive Event where
  | goToStatus (trainNo : Str)
  | goBack
  | timer (handle : Nat)
  deriving DecidableEq, Repr

/-- The event loop runs the callback of an active timer; a timeout is removed
once it has run, an interval stays.  A handle that is not active runs nothing. -/
def fireTimer (rnd : Random) (h : Nat) (st : Sim) : Sim :=
  match st.timers.find? (fun t => t.handle = h) with
  | none => st
  | some t =>
    match t.kind with
    | .clock => st
    | .countdown => countdownTick rnd st
    | .toast => { clearInterval h st with toastShow := false }

/-- One event. -/
def step (rnd : Random) (st : Sim) : Event → Sim
  | .goToStatus trainNo => goToStatus rnd trainNo st
  | .goBack => goBack st
  | .timer h => fireTimer rnd h st

/-- A sequence of events, from a given state. -/
def run (rnd : Random) (st : Sim) (evs : List Event) : Sim := evs.foldl (step rnd) st

/-! ## Specification-side definitions -/

/-- The text of a pair before its first `=` (all of it when there is none). -/
def beforeFirstEq (pair : Str) : Str := pair.takeWhile (fun c => c != '=')

/-- Everything in a pair after its first `=` (nothing when there is none). -/
def afterFirstEq (pair : Str) : Str := (pair.dropWhile (fun c => c != '=')).drop 1

/-- Storing a value under a name in a plain map, whatever the name: the value of
a name already present is replaced where it stands, a new name goes to the
end. -/
def storePlain (m : Obj Str) (name value : Str) : Obj Str :=
  if m.any (fun kv => kv.1 == name) then
    m.map (fun kv => if kv.1 = name then (name, value) else kv)
  else m ++ [(name, value)]

/-- The cookie map read off a header word for word: split on `;`, name before
the first `=`, value everything after it, nothing trimmed, every pair stored. -/
def parseCookiesVerbatim (header : Str) : Obj Str :=
  (split ';' header).foldl
    (fun (m : Obj Str) pair => storePlain m (beforeFirstEq pair) (afterFirstEq pair)) []

/-- The header carries a pair named `name` with value `value`, read word for
word. -/
def carriesCredential (name value header : Str) : Bool :=
  (split ';' header).any (fun pair => beforeFirstEq pair == name && afterFirstEq pair == value)

/-- The name of a pair as the parser stores it: the text before the first `=` of
the trimmed pair, trimmed. -/
def pairName (pair : Str) : Str := trim (beforeFirstEq (trim pair))

/-- The value of a pair as the parser stores it: everything after the first `=`
of the trimmed pair, trimmed. -/
def pairValue (pair : Str) : Str := trim (afterFirstEq (trim pair))

/-- The last of the `;`-separated pairs of a header whose stored name is `name`. -/
def lastPairNamed (name header : Str) : Option Str :=
  ((split ';' header).filter (fun pair => pairName pair = name)).getLast?

/-- A `Set-Cookie` value read as a directive: the pieces between `;`, trimmed;
the first is `name=value`, the others are the attributes. -/
def cookieDirective (setCookie : Str) : Str × Str × List Str :=
  match (split ';' setCookie).map trim with
  | [] => ([], [], [])
  | nv :: attrs => (beforeFirstEq nv, afterFirstEq nv, attrs)

/-- The status code of an answer. -/
def Outcome.status : Outcome → Option Nat
  | .next => none
  | .send status _ _ _ => some status

/-- The `Set-Cookie` header of an answer. -/
def Outcome.setCookie : Outcome → Option Str
  | .next => none
  | .send _ setCookie _ _ => setCookie

/-- The `Location` header of an answer. -/
def Outcome.location : Outcome → Option Str
  | .next => none
  | .send _ _ location _ => location

/-- The ten decimal digits. -/
def decimalDigits : List Char := ['0', '1', '2', '3', '4', '5', '6', '7', '8', '9']

/-- A train identifier: a string of 4 or 5 decimal digits. -/
def isTrainNumber (s : Str) : Bool :=
  (s.length == 4 || s.length == 5) && s.all (fun c => decimalDigits.contains c)

/-- The state with the entry field holding `raw`. -/
def withInput (raw : Str) (st : Sim) : Sim := { st with trainInputValue := raw }

/-- The toilets of a coach in a dataset: none when the coach is missing. -/
def toiletsOf (data : Obj (List Toilet)) (coach : Coach) : List Toilet :=
  (data.get coach.id).getD []

/-- The number of toilets with status vacant, summed over the catalog coaches. -/
def vacantTotal (data : Obj (List Toilet)) : Nat :=
  (COACHES.map (fun c => (toiletsOf data c).countP (fun t => t.status = vacant))).sum

/-- The number of all other toilets, summed over the catalog coaches. -/
def occupiedTotal (data : Obj (List Toilet)) : Nat :=
  (COACHES.map (fun c => (toiletsOf data c).countP (fun t => ¬ t.status = vacant))).sum

/-- The sections a dataset calls for: the catalog coaches with at least one
toilet, in catalog order, each with one tile per toilet. -/
def expectedSections (data : Obj (List Toilet)) : List CoachSection :=
  (COACHES.filter (fun c => toiletsOf data c ≠ [])).map
    (fun c => ⟨c.label, (toiletsOf data c).map mkTile⟩)

/-- The coach ids of a dataset with the number of toilets of each. -/
def toiletCounts (data : Obj (List Toilet)) : Obj Nat :=
  data.map (fun kv => (kv.1, kv.2.length))

/-- The number of toilets in a dataset. -/
def totalToilets (data : Obj (List Toilet)) : Nat :=
  (data.map (fun kv => kv.2.length)).sum

/-- The status of a toilet is one of the two literals. -/
def validStatus (t : Toilet) : Bool := t.status == vacant || t.status == occupied

/-- Every toilet of a dataset has one of the two statuses. -/
def allValid (data : Obj (List Toilet)) : Bool :=
  data.all (fun kv => kv.2.all validStatus)

/-- The ids and types of a coach's toilets, in order. -/
def idsAndTypes (ts : List Toilet) : List (Str × Str) := ts.map (fun t => (t.id, t.type))

/-- A dataset with one coach and two toilets, one of each status. -/
def sampleData : Obj (List Toilet) :=
  [("H1".toList,
    [⟨"H1-T1".toList, "Western".toList, vacant⟩, ⟨"H1-T2".toList, "Indian".toList, occupied⟩])]

/-- The initial state holding `sampleData`. -/
def sampleState : Sim := { Sim.init with toiletData := sampleData }

/-- The active timers of one kind. -/
def timersOf (kind : TimerKind) (st : Sim) : List Timer :=
  st.timers.filter (fun t => t.kind = kind)

/-- The shape of the timer table in every reachable state: handles are distinct,
positive and below the next handle; the recorded countdown handle is below the
next handle and names only a countdown timer; every active countdown timer is
the recorded one. -/
def OkT (timers : List Timer) (next : Nat) (cd : Option Nat) : Prop :=
  (timers.map Timer.handle).Nodup ∧
  0 < next ∧
  (∀ t ∈ timers, 0 < t.handle ∧ t.handle < next) ∧
  (∀ h, cd = some h → h < next) ∧
  (∀ h, cd = some h → ∀ t ∈ timers, t.handle = h → t.kind = .countdown) ∧
  (∀ t ∈ timers, t.kind = .countdown → cd = some t.handle)

/-- The timer table of a state has the reachable shape. -/
def TimersOk (st : Sim) : Prop := OkT st.timers st.nextHandle st.countdownTimer

/-- The number of `goToStatus` events in a sequence. -/
def entries (evs : List Event) : Nat :=
  evs.countP (fun ev => match ev with
    | .goToStatus _ => true
    | _ => false)

/-- Every event of the sequence is a timer coming due: no train is selected and
the status screen is not left. -/
def timerOnly (evs : List Event) : Bool :=
  evs.all (fun ev => match ev with
    | .timer _ => true
    | _ => false)

/-- How many times the timer with handle `c` comes due in a sequence. -/
def firings (c : Nat) (evs : List Event) : Nat :=
  evs.countP (fun ev => ev = .timer c)

/-- The countdown with handle `c` is running: the table has the reachable
shape, `c` is the recorded handle and its timer is active. -/
def CountdownLive (c : Nat) (st : Sim) : Prop :=
  TimersOk st ∧ st.countdownTimer = some c ∧ (⟨c, .countdown⟩ : Timer) ∈ st.timers

/-! ## Lemmas: strings and objects -/

theorem split_ne_nil (sep : Char) (s : Str) : split sep s ≠ [] := by
  cases s with
  | nil => simp [split]
  | cons c cs =>
    unfold split
    split_ifs
    · simp
    · split <;> simp

theorem join_cons_cons (sep : Char) (p q : Str) (rest : List Str) :
    join sep (p :: q :: rest) = p ++ sep :: join sep (q :: rest) := rfl

theorem join_cons_of_ne_nil (sep : Char) (p : Str) (l : List Str) (hl : l ≠ []) :
    join sep (p :: l) = p ++ sep :: join sep l := by
  cases l with
  | nil => exact absurd rfl hl
  | cons q rest => rfl

theorem join_cons_push (sep c : Char) (p : Str) (l : List Str) :
    join sep ((c :: p) :: l) = c :: join sep (p :: l) := by
  cases l with
  | nil => rfl
  | cons q rest => rfl

/-- Joining the pieces of a split with the separator gives the string back. -/
theorem join_split (sep : Char) (s : Str) : join sep (split sep s) = s := by
  induction s with
  | nil => rfl
  | cons c cs ih =>
    unfold split
    split_ifs with h
    · rw [join_cons_of_ne_nil _ _ _ (split_ne_nil sep cs), ih, h]; rfl
    · split
      · next h0 => exact absurd h0 (split_ne_nil sep cs)
      · next p ps h0 =>
        rw [join_cons_push, ← h0, ih]

/-- No piece of a split contains the separator. -/
theorem not_mem_of_mem_split (sep : Char) (s p : Str) (hp : p ∈ split sep s) : sep ∉ p := by
  induction s generalizing p with
  | nil =>
    simp [split] at hp
    simp [hp]
  | cons c cs ih =>
    unfold split at hp
    split_ifs at hp with h
    · rcases List.mem_cons.1 hp with h1 | h1
      · simp [h1]
      · exact ih p h1
    · split at hp
      · next h0 => exact absurd h0 (split_ne_nil sep cs)
      · next q qs h0 =>
        rcases List.mem_cons.1 hp with h1 | h1
        · have hq : sep ∉ q := ih q (by rw [h0]; exact List.mem_cons_self _ _)
          rw [h1]
          intro hm
          rcases List.mem_cons.1 hm with h2 | h2
          · exact h h2.symm
          · exact hq h2
        · exact ih p (by rw [h0]; exact List.mem_cons_of_mem _ h1)

/-- The first piece of a split is the text before the first separator, and the
other pieces joined back are everything after it. -/
theorem split_first (sep : Char) (s : Str) :
    ∃ rest, split sep s = s.takeWhile (fun c => c != sep) :: rest ∧
      join sep rest = (s.dropWhile (fun c => c != sep)).drop 1 := by
  induction s with
  | nil => exact ⟨[], rfl, rfl⟩
  | cons c cs ih =>
    obtain ⟨rest, h1, h2⟩ := ih
    unfold split
    split_ifs with h
    · have hb : (c != sep) = false := by simp [h]
      refine ⟨split sep cs, ?_, ?_⟩
      · rw [List.takeWhile_cons, hb]; rfl
      · rw [List.dropWhile_cons, hb, join_split]; rfl
    · have hb : (c != sep) = true := by simp [h]
      refine ⟨rest, ?_, ?_⟩
      · rw [h1, List.takeWhile_cons, hb]; rfl
      · rw [h2, List.dropWhile_cons, hb]; rfl

theorem parseCookiePair_eq (o : Obj Str) (pair : Str) :
    parseCookiePair o pair = o.set (pairName pair) (pairValue pair) := by
  obtain ⟨rest, h1, h2⟩ := split_first '=' (trim pair)
  unfold parseCookiePair pairName pairValue beforeFirstEq afterFirstEq
  rw [h1]
  simp only [h2]

theorem Obj.get_nil {α : Type} (k : Str) : Obj.get ([] : Obj α) k = none := rfl

theorem Obj.get_cons {α : Type} (a : Str) (b : α) (rest : Obj α) (k : Str) :
    Obj.get ((a, b) :: rest) k = if a = k then some b else Obj.get rest k := rfl

theorem Obj.replace_cons {α : Type} (a : Str) (b : α) (rest : Obj α) (k : Str) (v : α) :
    Obj.replace ((a, b) :: rest) k v =
      (if a = k then (k, v) else (a, b)) :: Obj.replace rest k v := rfl

theorem Obj.get_replace {α : Type} (o : Obj α) (k k' : Str) (v : α) :
    (o.replace k v).get k' = if k = k' then (o.get k).map (fun _ => v) else o.get k' := by
  induction o with
  | nil => simp [Obj.replace, Obj.get_nil]
  | cons kv rest ih =>
    obtain ⟨a, b⟩ := kv
    rw [Obj.replace_cons]
    by_cases h1 : a = k
    · rw [if_pos h1, Obj.get_cons, Obj.get_cons, Obj.get_cons, if_pos h1, ih]
      by_cases h2 : k = k'
      · simp [h2]
      · have h3 : ¬ a = k' := by rw [h1]; exact h2
        simp [h2, h3]
    · rw [if_neg h1, Obj.get_cons, Obj.get_cons, Obj.get_cons, if_neg h1, ih]
      by_cases h2 : k = k'
      · have h3 : ¬ a = k' := by rw [← h2]; exact h1
        simp [h2, h3]
      · simp [h2]

theorem Obj.get_append_singleton {α : Type} (o : Obj α) (k k' : Str) (v : α) :
    (o ++ [(k, v)]).get k' =
      match o.get k' with
      | some w => some w
      | none => if k = k' then some v else none := by
  induction o with
  | nil => simp [Obj.get_nil, Obj.get_cons]
  | cons kv rest ih =>
    obtain ⟨a, b⟩ := kv
    rw [List.cons_append, Obj.get_cons, Obj.get_cons]
    by_cases h1 : a = k'
    · simp [h1]
    · rw [if_neg h1, if_neg h1]
      exact ih

/-- Reading after an assignment. -/
theorem Obj.get_set {α : Type} (o : Obj α) (k k' : Str) (v : α) :
    (o.set k v).get k' =
      if k = protoKey then o.get k'
      else if k = k' then some v else o.get k' := by
  unfold Obj.set
  split_ifs with h1 h2 h3 h3
  · rfl
  · rw [Obj.get_replace, if_pos h3]
    subst h3
    cases h : o.get k with
    | none => simp [h] at h2
    | some w => rfl
  · rw [Obj.get_replace, if_neg h3]
  · rw [Obj.get_append_singleton, if_pos h3]
    subst h3
    cases h : o.get k with
    | none => rfl
    | some w => simp [h] at h2
  · rw [Obj.get_append_singleton, if_neg h3]
    cases h : o.get k' <;> rfl

/-- After a run of assignments `o[f p] = g p`, the value under a key is the one
written by the last `p` with that key, or the old one when there is none. -/
theorem Obj.get_foldl_set {α β : Type} (f : β → Str) (g : β → α) (k : Str)
    (hk : k ≠ protoKey) (ps : List β) (o : Obj α) :
    (ps.foldl (fun acc p => acc.set (f p) (g p)) o).get k =
      match (ps.filter (fun p => f p = k)).getLast? with
      | some p => some (g p)
      | none => o.get k := by
  induction ps using List.reverseRecOn with
  | nil => simp
  | append_singleton init p ih =>
    rw [List.foldl_append, List.foldl_cons, List.foldl_nil, Obj.get_set, List.filter_append]
    by_cases h : f p = k
    · have hp : f p ≠ protoKey := by rw [h]; exact hk
      rw [if_neg hp, if_pos h]
      have hf : List.filter (fun p => decide (f p = k)) [p] = [p] := by simp [h]
      rw [hf, List.getLast?_append]
      rfl
    · have hf : List.filter (fun p => decide (f p = k)) [p] = [] := by simp [h]
      rw [hf, List.append_nil, ← ih]
      split_ifs <;> rfl

/-! ## The access gate -/

theorem trim_nil : trim [] = [] := rfl

theorem pairName_nil : pairName [] = [] := rfl

/-- What `parseCookies` stores under a key is the value of the last pair with
that name. -/
theorem get_parseCookies (header k : Str) (hk : k ≠ protoKey) (hk' : k ≠ []) :
    (parseCookies ⟨some header⟩).get k = (lastPairNamed k header).map pairValue := by
  unfold parseCookies lastPairNamed
  simp only
  split_ifs with h
  · subst h
    have hf : List.filter (fun pair => decide (pairName pair = k)) (split ';' []) = [] := by
      have : ¬ ([] : Str) = k := fun e => hk' e.symm
      simp [split, pairName_nil, this]
    rw [hf]
    rfl
  · have hfun : parseCookiePair = fun o pair => Obj.set o (pairName pair) (pairValue pair) := by
      funext o pair
      exact parseCookiePair_eq o pair
    rw [hfun, Obj.get_foldl_set pairName pairValue k hk]
    cases (List.filter (fun p => decide (pairName p = k)) (split ';' header)).getLast? <;> rfl

/-- C1, as stated, fails: the header `tf_session=trainfresh2026;tf_session=x`
carries a pair named `tf_session` whose value is exactly the access token, and
`requireAuth` answers 403 with the access-denied page. -/
theorem requireAuth_denies_carried_credential :
    carriesCredential "tf_session".toList SECRET_TOKEN
        "tf_session=trainfresh2026;tf_session=x".toList = true ∧
      requireAuth ⟨some "tf_session=trainfresh2026;tf_session=x".toList⟩ =
        .send 403 none none .accessDeniedHTML := by
  decide

/-- C1, amended: `requireAuth` calls `next` exactly when the Cookie header is
present and the last of its `;`-separated pairs whose trimmed name is
`tf_session` has a trimmed value equal to `SECRET_TOKEN`; in every other case it
answers 403 with the access-denied page. -/
theorem requireAuth_iff_last_pair (req : Request) :
    (requireAuth req = .next ↔
      ∃ header pair, req.cookie = some header ∧
        lastPairNamed "tf_session".toList header = some pair ∧
        pairValue pair = SECRET_TOKEN) ∧
    (requireAuth req = .next ∨ requireAuth req = .send 403 none none .accessDeniedHTML) := by
  have hdis : requireAuth req = .next ∨
      requireAuth req = .send 403 none none .accessDeniedHTML := by
    unfold requireAuth
    simp only
    split_ifs
    · exact Or.inl rfl
    · exact Or.inr rfl
  refine ⟨?_, hdis⟩
  obtain ⟨cookie⟩ := req
  cases cookie with
  | none =>
    constructor
    · intro h
      have : requireAuth ⟨none⟩ = .send 403 none none .accessDeniedHTML := by decide
      rw [this] at h
      cases h
    · rintro ⟨header, pair, h, -⟩
      cases h
  | some header =>
    have hget := get_parseCookies header "tf_session".toList (by decide) (by decide)
    unfold requireAuth
    simp only
    rw [hget]
    constructor
    · intro h
      split_ifs at h with h1
      cases hl : lastPairNamed "tf_session".toList header with
      | none => rw [hl] at h1; cases h1
      | some pair =>
        rw [hl] at h1
        exact ⟨header, pair, rfl, hl, Option.some.inj h1⟩
    · rintro ⟨header', pair, h1, h2, h3⟩
      cases h1
      rw [h2]
      simp [h3]

/-- C2, as stated, fails: for the header `a= 1` everything after the first `=`
is ` 1`, and `parseCookies` stores `1`. -/
theorem parseCookies_value_not_verbatim :
    parseCookies ⟨some "a= 1".toList⟩ = [("a".toList, "1".toList)] ∧
      parseCookiesVerbatim "a= 1".toList = [("a".toList, " 1".toList)] ∧
      afterFirstEq (trim "a= 1".toList) = " 1".toList := by
  decide

theorem Obj.isSome_get_eq_any {α : Type} (o : Obj α) (k : Str) :
    (o.get k).isSome = o.any (fun kv => kv.1 == k) := by
  induction o with
  | nil => rfl
  | cons kv rest ih =>
    obtain ⟨a, b⟩ := kv
    rw [Obj.get_cons, List.any_cons]
    by_cases h : a = k
    · have hb : (a == k) = true := by rw [beq_iff_eq]; exact h
      rw [if_pos h, hb]
      rfl
    · have hb : (a == k) = false := by
        rw [Bool.eq_false_iff]
        intro e
        exact h (beq_iff_eq.1 e)
      rw [if_neg h, ih, hb]
      rfl

/-- Away from the name `__proto__` the assignment is the plain store. -/
theorem Obj.set_eq_storePlain (o : Obj Str) (k v : Str) (hk : k ≠ protoKey) :
    o.set k v = storePlain o k v := by
  unfold Obj.set storePlain
  rw [if_neg hk, Obj.isSome_get_eq_any]
  rfl

/-- A run of assignments is the plain store of the pairs not named
`__proto__`. -/
theorem Obj.foldl_set_eq_storePlain {β : Type} (f g : β → Str) (ps : List β) :
    ∀ o : Obj Str,
      ps.foldl (fun acc p => Obj.set acc (f p) (g p)) o =
        (ps.filter (fun p => decide (f p ≠ "__proto__".toList))).foldl
          (fun m p => storePlain m (f p) (g p)) o := by
  induction ps with
  | nil => intro o; rfl
  | cons p ps ih =>
    intro o
    rw [List.foldl_cons, ih]
    by_cases h : f p = protoKey
    · have hs : Obj.set o (f p) (g p) = o := by
        unfold Obj.set
        rw [if_pos h]
      have hf : List.filter (fun p => decide (f p ≠ "__proto__".toList)) (p :: ps) =
          List.filter (fun p => decide (f p ≠ "__proto__".toList)) ps := by
        rw [List.filter_cons, if_neg]
        simpa using h
      rw [hs, hf]
    · have hf : List.filter (fun p => decide (f p ≠ "__proto__".toList)) (p :: ps) =
          p :: List.filter (fun p => decide (f p ≠ "__proto__".toList)) ps := by
        rw [List.filter_cons, if_pos]
        simpa using h
      rw [hf, List.foldl_cons, Obj.set_eq_storePlain o (f p) (g p) h]

/-- Nothing is ever stored under `__proto__`. -/
theorem Obj.get_proto_foldl_set {β : Type} (f g : β → Str) (ps : List β) :
    ∀ o : Obj Str,
      (ps.foldl (fun acc p => Obj.set acc (f p) (g p)) o).get protoKey = o.get protoKey := by
  induction ps with
  | nil => intro o; rfl
  | cons p ps ih =>
    intro o
    rw [List.foldl_cons, ih, Obj.get_set]
    by_cases h1 : f p = protoKey
    · rw [if_pos h1]
    · rw [if_neg h1, if_neg h1]

/-- C2, amended: for a non-empty header `parseCookies` splits on `;` (the pieces
hold no `;` and give the header back when joined); each pair has as name the
trimmed text before the first `=` of the trimmed pair and as value the trimmed
text after that first `=` (further `=` kept); a pair named `__proto__` stores
nothing, every other pair stores its value under its name in a plain map, in
order, a later pair replacing an earlier one of the same name; so the value
read under a name other than `__proto__` is that of the last pair with the
name; the empty header gives the empty map; `a=1; b=2=3` parses to
`a: 1, b: 2=3` and `__proto__=x` to the empty map. -/
theorem parseCookies_spec (header : Str) :
    parseCookies ⟨some header⟩ =
        (if header = [] then []
         else
          ((split ';' header).filter
            (fun pair => decide (trim (beforeFirstEq (trim pair)) ≠ "__proto__".toList))).foldl
            (fun m pair =>
              storePlain m (trim (beforeFirstEq (trim pair))) (trim (afterFirstEq (trim pair))))
            []) ∧
      (∀ k, (parseCookies ⟨some header⟩).get k =
        if header = [] ∨ k = "__proto__".toList then none
        else (((split ';' header).filter
            (fun pair => trim (beforeFirstEq (trim pair)) = k)).getLast?).map
          (fun pair => trim (afterFirstEq (trim pair)))) ∧
      join ';' (split ';' header) = header ∧
      (split ';' header).all (fun pair => decide (';' ∉ pair)) = true ∧
      parseCookies ⟨some "a=1; b=2=3".toList⟩ =
        [("a".toList, "1".toList), ("b".toList, "2=3".toList)] ∧
      parseCookies ⟨some "__proto__=x".toList⟩ = [] := by
  have hfun : parseCookiePair =
      fun o pair => Obj.set o (trim (beforeFirstEq (trim pair)))
        (trim (afterFirstEq (trim pair))) := by
    funext o pair
    exact parseCookiePair_eq o pair
  refine ⟨?_, ?_, join_split ';' header, ?_, by decide, by decide⟩
  · unfold parseCookies
    simp only
    split_ifs with h
    · rfl
    · rw [hfun]
      exact Obj.foldl_set_eq_storePlain _ _ _ []
  · intro k
    unfold parseCookies
    simp only
    by_cases h : header = []
    · simp [h, Obj.get_nil]
    · rw [if_neg h, hfun]
      by_cases hk : k = "__proto__".toList
      · rw [if_pos (Or.inr hk), hk]
        exact Obj.get_proto_foldl_set _ _ _ []
      · rw [if_neg (by rintro (h' | h'); exacts [h h', hk h']),
          Obj.get_foldl_set _ _ k hk]
        cases (List.filter (fun p => decide (trim (beforeFirstEq (trim p)) = k))
          (split ';' header)).getLast? <;> rfl
  · rw [List.all_eq_true]
    intro pair hp
    exact decide_eq_true (not_mem_of_mem_split ';' header pair hp)

/-- C3: for the access token the route answers with a redirect to `/` and a
`Set-Cookie` directive named `tf_session` whose value is `SECRET_TOKEN`, with
the attributes `HttpOnly`, `Max-Age=3600` and `Path=/`; for every other token it
answers 403 and sets no cookie. -/
theorem accessRoute_spec (t : Str) :
    (t = SECRET_TOKEN →
      (accessRoute t).status = some 302 ∧
      (accessRoute t).location = some "/".toList ∧
      (accessRoute t).setCookie.map cookieDirective =
        some ("tf_session".toList, SECRET_TOKEN,
          ["HttpOnly".toList, "Max-Age=3600".toList, "Path=/".toList])) ∧
    (t ≠ SECRET_TOKEN →
      accessRoute t = .send 403 none none .invalidQR ∧
      (accessRoute t).status = some 403 ∧ (accessRoute t).setCookie = none) := by
  constructor
  · intro h
    subst h
    decide
  · intro h
    have : accessRoute t = .send 403 none none .invalidQR := by
      unfold accessRoute
      rw [if_neg h]
    rw [this]
    exact ⟨rfl, rfl, rfl⟩

/-- C3 at the access token and at the token `trainfresh2025`. -/
theorem accessRoute_spec_witness :
    ((accessRoute SECRET_TOKEN).status = some 302 ∧
      (accessRoute SECRET_TOKEN).location = some "/".toList ∧
      (accessRoute SECRET_TOKEN).setCookie.map cookieDirective =
        some ("tf_session".toList, SECRET_TOKEN,
          ["HttpOnly".toList, "Max-Age=3600".toList, "Path=/".toList])) ∧
    (accessRoute "trainfresh2025".toList = .send 403 none none .invalidQR ∧
      (accessRoute "trainfresh2025".toList).status = some 403 ∧
      (accessRoute "trainfresh2025".toList).setCookie = none) :=
  ⟨(accessRoute_spec SECRET_TOKEN).1 rfl, (accessRoute_spec "trainfresh2025".toList).2 (by decide)⟩

/-! ## Validation of the entry field -/

theorem isDigit_iff_mem (c : Char) : isDigit c = decimalDigits.contains c := by
  by_cases h : 48 ≤ c.toNat ∧ c.toNat ≤ 57
  · obtain ⟨h1, h2⟩ := h
    have hc : c = Char.ofNat c.toNat := (Char.ofNat_toNat c).symm
    have hd : isDigit c = true := by simp [isDigit, h1, h2]
    rw [hd, hc]
    generalize c.toNat = n at h1 h2
    interval_cases n <;> decide
  · have hd : isDigit c = false := by
      unfold isDigit
      rcases not_and_or.1 h with h1 | h1
      · simp [h1]
      · simp [h1]
    rw [hd]
    symm
    rw [Bool.eq_false_iff]
    intro hm
    apply h
    have hm' : c ∈ decimalDigits := by simpa using hm
    simp only [decimalDigits, List.mem_cons, List.mem_singleton, List.not_mem_nil,
      or_false] at hm'
    rcases hm' with h | h | h | h | h | h | h | h | h | h <;> subst h <;> decide

/-- What the quantifier leaves: `r` is left exactly when a prefix of between
`lo` and `hi` characters of the class has been taken off. -/
theorem mem_matchRepeat (p : Char → Bool) (hi : Nat) :
    ∀ (lo : Nat) (s r : Str), r ∈ matchRepeat p lo hi s ↔
      ∃ pre, s = pre ++ r ∧ lo ≤ pre.length ∧ pre.length ≤ hi ∧ pre.all p = true := by
  induction hi with
  | zero =>
    intro lo s r
    unfold matchRepeat
    constructor
    · intro h
      split_ifs at h with h0
      · rw [List.mem_singleton] at h
        exact ⟨[], by simp [h], by simp [h0], le_refl _, rfl⟩
      · cases h
    · rintro ⟨pre, h1, h2, h3, -⟩
      have hp : pre = [] := List.length_eq_zero.1 (Nat.le_zero.1 h3)
      subst hp
      have h0 : lo = 0 := Nat.le_zero.1 h2
      simp [h0, h1]
  | succ hi ih =>
    intro lo s r
    unfold matchRepeat
    rw [List.mem_append]
    constructor
    · rintro (h | h)
      · cases s with
        | nil => cases h
        | cons c cs =>
          simp only at h
          split_ifs at h with hc
          · obtain ⟨pre, h1, h2, h3, h4⟩ := (ih (lo - 1) cs r).1 h
            refine ⟨c :: pre, by simp [h1], ?_, ?_, ?_⟩
            · simp only [List.length_cons]; omega
            · simp only [List.length_cons]; omega
            · simp [hc, h4]
          · cases h
      · split_ifs at h with h0
        · rw [List.mem_singleton] at h
          exact ⟨[], by simp [h], by simp [h0], Nat.zero_le _, rfl⟩
        · cases h
    · rintro ⟨pre, h1, h2, h3, h4⟩
      cases pre with
      | nil =>
        right
        have h0 : lo = 0 := Nat.le_zero.1 h2
        simp [h0, h1]
      | cons c pre =>
        left
        subst h1
        simp only [List.all_cons, Bool.and_eq_true] at h4
        simp only [List.cons_append, h4.1, if_true]
        refine (ih (lo - 1) (pre ++ r) r).2 ⟨pre, rfl, ?_, ?_, h4.2⟩
        · simp only [List.length_cons] at h2; omega
        · simp only [List.length_cons] at h3; omega

/-- The pattern of `handleSearch` accepts exactly the strings of 4 or 5 decimal
digits. -/
theorem trainNoPattern_eq (s : Str) : trainNoPattern s = isTrainNumber s := by
  have hall : s.all isDigit = s.all (fun c => decimalDigits.contains c) := by
    congr 1
    funext c
    exact isDigit_iff_mem c
  rw [Bool.eq_iff_iff]
  unfold trainNoPattern isTrainNumber
  rw [← hall, List.any_eq_true]
  constructor
  · rintro ⟨r, hr, hre⟩
    have hr0 : r = [] := by simpa using hre
    subst hr0
    obtain ⟨pre, h1, h2, h3, h4⟩ := (mem_matchRepeat isDigit 5 4 s []).1 hr
    rw [List.append_nil] at h1
    subst h1
    have hlen : s.length = 4 ∨ s.length = 5 := by omega
    rcases hlen with h | h <;> simp [h, h4]
  · intro h
    rw [Bool.and_eq_true] at h
    refine ⟨[], (mem_matchRepeat isDigit 5 4 s []).2 ⟨s, by simp, ?_, ?_, h.2⟩, rfl⟩
    · have := h.1
      simp only [Bool.or_eq_true, beq_iff_eq] at this
      omega
    · have := h.1
      simp only [Bool.or_eq_true, beq_iff_eq] at this
      omega

/-- The guarded `clearInterval` changes the timer table only. -/
theorem clearCountdownTimer_frame (st : Sim) :
    clearCountdownTimer st = { st with timers := (clearCountdownTimer st).timers } := by
  cases st with
  | mk f1 f2 f3 timer f5 f6 f7 f8 f9 f10 f11 f12 f13 f14 f15 f16 f17 f18 f19 =>
    cases timer with
    | none => rfl
    | some h =>
      unfold clearCountdownTimer
      simp only
      split_ifs <;> rfl

theorem goToStatus_screen (rnd : Random) (trainNo : Str) (st : Sim) :
    (goToStatus rnd trainNo st).screenStatusHidden = false ∧
      (goToStatus rnd trainNo st).screenEntryHidden = true := by
  unfold goToStatus showToast startCountdown
  simp only
  rw [clearCountdownTimer_frame]
  constructor <;> rfl

/-- C4: `handleSearch` trims the field; an empty result gives the message
`Please enter a train number.` and the error mark and nothing else changes; a
non-empty result that is not 4 or 5 decimal digits gives the format message and
the error mark and nothing else changes; otherwise the message and mark are
cleared and `goToStatus` is called with exactly the trimmed string, which shows
the status screen. -/
theorem handleSearch_spec (rnd : Random) (st : Sim) :
    (trim st.trainInputValue = [] →
      handleSearch rnd st =
        { st with inputHint := "Please enter a train number.".toList, trainInputError := true }) ∧
    (trim st.trainInputValue ≠ [] → isTrainNumber (trim st.trainInputValue) = false →
      handleSearch rnd st =
        { st with
          inputHint := "Train number must be 4â€“5 digits.".toList
          trainInputError := true }) ∧
    (isTrainNumber (trim st.trainInputValue) = true →
      handleSearch rnd st =
        goToStatus rnd (trim st.trainInputValue)
          { st with inputHint := [], trainInputError := false } ∧
      (handleSearch rnd st).screenStatusHidden = false ∧
      (handleSearch rnd st).screenEntryHidden = true) := by
  refine ⟨?_, ?_, ?_⟩
  · intro h
    unfold handleSearch
    simp only [h, if_true]
  · intro h1 h2
    unfold handleSearch
    simp only [h1, if_false, trainNoPattern_eq, h2, Bool.not_false, if_true]
  · intro h
    have hne : trim st.trainInputValue ≠ [] := by
      intro h0
      rw [h0] at h
      exact absurd h (by decide)
    have heq : handleSearch rnd st =
        goToStatus rnd (trim st.trainInputValue)
          { st with inputHint := [], trainInputError := false } := by
      unfold handleSearch
      simp only [hne, if_false, trainNoPattern_eq, h, Bool.not_true]
      rfl
    refine ⟨heq, ?_, ?_⟩
    · rw [heq]; exact (goToStatus_screen _ _ _).1
    · rw [heq]; exact (goToStatus_screen _ _ _).2

/-- C4 on the inputs of the spec: the empty field, `abc`, `123`, and ` 12345 `
(which goes to the status screen with `12345`). -/
theorem handleSearch_spec_witness :
    (handleSearch (fun _ => 0) (withInput "".toList Sim.init) =
      { withInput "".toList Sim.init with
        inputHint := "Please enter a train number.".toList, trainInputError := true }) ∧
    (handleSearch (fun _ => 0) (withInput "abc".toList Sim.init) =
      { withInput "abc".toList Sim.init with
        inputHint := "Train number must be 4â€“5 digits.".toList
        trainInputError := true }) ∧
    (handleSearch (fun _ => 0) (withInput "123".toList Sim.init) =
      { withInput "123".toList Sim.init with
        inputHint := "Train number must be 4â€“5 digits.".toList
        trainInputError := true }) ∧
    (handleSearch (fun _ => 0) (withInput " 12345 ".toList Sim.init) =
        goToStatus (fun _ => 0) "12345".toList
          { withInput " 12345 ".toList Sim.init with inputHint := [], trainInputError := false } ∧
      (handleSearch (fun _ => 0) (withInput " 12345 ".toList Sim.init)).screenStatusHidden = false ∧
      (handleSearch (fun _ => 0) (withInput " 12345 ".toList Sim.init)).screenEntryHidden = true) :=
  ⟨(handleSearch_spec (fun _ => 0) (withInput "".toList Sim.init)).1 (by decide),
   (handleSearch_spec (fun _ => 0) (withInput "abc".toList Sim.init)).2.1 (by decide) (by decide),
   (handleSearch_spec (fun _ => 0) (withInput "123".toList Sim.init)).2.1 (by decide) (by decide),
   (handleSearch_spec (fun _ => 0) (withInput " 12345 ".toList Sim.init)).2.2 (by decide)⟩

/-! ## Entering the status screen -/

theorem Obj.get_eq_none {α : Type} (o : Obj α) (k : Str) (h : ∀ v, (k, v) ∉ o) :
    o.get k = none := by
  induction o with
  | nil => rfl
  | cons kv rest ih =>
    obtain ⟨a, b⟩ := kv
    rw [Obj.get_cons]
    have hne : ¬ a = k := by
      intro e
      exact h b (by rw [← e]; exact List.mem_cons_self _ _)
    rw [if_neg hne]
    exact ih (fun v hv => h v (List.mem_cons_of_mem _ hv))

theorem Obj.mem_of_get {α : Type} (o : Obj α) (k : Str) (v : α) (h : o.get k = some v) :
    (k, v) ∈ o := by
  induction o with
  | nil => cases h
  | cons kv rest ih =>
    obtain ⟨a, b⟩ := kv
    rw [Obj.get_cons] at h
    split_ifs at h with e
    · cases h
      rw [e]
      exact List.mem_cons_self _ _
    · exact List.mem_cons_of_mem _ (ih h)

/-- The keys of `TRAIN_DB` are distinct: an entry is what the read returns. -/
theorem TRAIN_DB_get_of_mem (id : Str) (info : TrainInfo) (h : (id, info) ∈ TRAIN_DB) :
    TRAIN_DB.get id = some info := by
  simp only [TRAIN_DB, List.mem_cons, List.mem_singleton, List.not_mem_nil, or_false,
    Prod.mk.injEq] at h
  rcases h with ⟨h1, h2⟩ | ⟨h1, h2⟩ | ⟨h1, h2⟩ | ⟨h1, h2⟩ | ⟨h1, h2⟩ | ⟨h1, h2⟩ <;>
    subst h1 <;> subst h2 <;> decide

/-- What `goToStatus` stores and shows for the train, in terms of the read of
`TRAIN_DB`. -/
theorem goToStatus_train (rnd : Random) (trainNo : Str) (st : Sim) :
    (goToStatus rnd trainNo st).currentTrain =
        some ⟨trainNo, ((TRAIN_DB.get trainNo).getD ⟨"Train ".toList ++ trainNo, []⟩).name,
          ((TRAIN_DB.get trainNo).getD ⟨"Train ".toList ++ trainNo, []⟩).route⟩ ∧
      (goToStatus rnd trainNo st).headerTrainName =
        trainNo ++ " Â· ".toList ++
          ((TRAIN_DB.get trainNo).getD ⟨"Train ".toList ++ trainNo, []⟩).name := by
  unfold goToStatus showToast startCountdown
  simp only
  rw [clearCountdownTimer_frame]
  constructor <;> rfl

/-- C5: for a string of 4 or 5 decimal digits `goToStatus` shows the status
screen with the current train set: for a key of `TRAIN_DB` the name and route
are the entry's and the header is the identifier, the separator and the name;
for any other identifier the name is `Train ` followed by the identifier and the
route is empty. -/
theorem goToStatus_currentTrain (rnd : Random) (id : Str) (st : Sim)
    (hid : isTrainNumber id = true) :
    (∀ info, (id, info) ∈ TRAIN_DB →
      (goToStatus rnd id st).currentTrain = some ⟨id, info.name, info.route⟩ ∧
      (goToStatus rnd id st).headerTrainName = id ++ " Â· ".toList ++ info.name) ∧
    ((∀ info, (id, info) ∉ TRAIN_DB) →
      (goToStatus rnd id st).currentTrain = some ⟨id, "Train ".toList ++ id, []⟩ ∧
      (goToStatus rnd id st).headerTrainName =
        id ++ " Â· ".toList ++ ("Train ".toList ++ id)) ∧
    (goToStatus rnd id st).screenStatusHidden = false ∧
    (goToStatus rnd id st).screenEntryHidden = true := by
  have _ := hid
  obtain ⟨h1, h2⟩ := goToStatus_train rnd id st
  refine ⟨?_, ?_, goToStatus_screen rnd id st⟩
  · intro info hmem
    rw [TRAIN_DB_get_of_mem id info hmem] at h1 h2
    exact ⟨h1, h2⟩
  · intro hnot
    rw [Obj.get_eq_none TRAIN_DB id hnot] at h1 h2
    exact ⟨h1, h2⟩

/-- C5 at `12301`, a key of `TRAIN_DB` (the header contains `Howrah Rajdhani`),
and at `99999`, which is not one (the name contains `99999`, the route is
empty). -/
theorem goToStatus_currentTrain_witness :
    (isTrainNumber "12301".toList = true ∧
      (goToStatus (fun _ => 0) "12301".toList Sim.init).currentTrain =
        some ⟨"12301".toList, "Howrah Rajdhani".toList, "Howrah â†’ New Delhi".toList⟩ ∧
      (goToStatus (fun _ => 0) "12301".toList Sim.init).headerTrainName =
        "12301 Â· ".toList ++ "Howrah Rajdhani".toList ++ []) ∧
    (isTrainNumber "99999".toList = true ∧
      (goToStatus (fun _ => 0) "99999".toList Sim.init).currentTrain =
        some ⟨"99999".toList, "Train ".toList ++ "99999".toList ++ [], []⟩) :=
  ⟨⟨by decide,
    ((goToStatus_currentTrain (fun _ => 0) "12301".toList Sim.init (by decide)).1
      ⟨"Howrah Rajdhani".toList, "Howrah â†’ New Delhi".toList⟩ (by decide)).1,
    ((goToStatus_currentTrain (fun _ => 0) "12301".toList Sim.init (by decide)).1
      ⟨"Howrah Rajdhani".toList, "Howrah â†’ New Delhi".toList⟩ (by decide)).2⟩,
   ⟨by decide,
    ((goToStatus_currentTrain (fun _ => 0) "99999".toList Sim.init (by decide)).2.1
      (fun info h => by
        simp only [TRAIN_DB, List.mem_cons, List.mem_singleton, List.not_mem_nil, or_false,
          Prod.mk.injEq] at h
        rcases h with ⟨h1, -⟩ | ⟨h1, -⟩ | ⟨h1, -⟩ | ⟨h1, -⟩ | ⟨h1, -⟩ | ⟨h1, -⟩ <;>
          exact absurd h1 (by decide))).1⟩⟩

/-! ## Rendering -/

theorem count_foldl (ts : List Toilet) (a : Nat × Nat) :
    ts.foldl (fun a t => if t.status = vacant then (a.1 + 1, a.2) else (a.1, a.2 + 1)) a =
      (a.1 + ts.countP (fun t => t.status = vacant),
       a.2 + ts.countP (fun t => ¬ t.status = vacant)) := by
  induction ts generalizing a with
  | nil => simp
  | cons t ts ih =>
    rw [List.foldl_cons, ih]
    by_cases h : t.status = vacant
    · simp [h, List.countP_cons]
      omega
    · simp [h, List.countP_cons]
      omega

theorem summary_foldl (data : Obj (List Toilet)) (cs : List Coach) (a : Nat × Nat) :
    cs.foldl
        (fun acc coach =>
          ((data.get coach.id).getD []).foldl
            (fun a t => if t.status = vacant then (a.1 + 1, a.2) else (a.1, a.2 + 1)) acc)
        a =
      (a.1 + (cs.map (fun c => (toiletsOf data c).countP (fun t => t.status = vacant))).sum,
       a.2 + (cs.map (fun c => (toiletsOf data c).countP (fun t => ¬ t.status = vacant))).sum) := by
  induction cs generalizing a with
  | nil => simp
  | cons c cs ih =>
    rw [List.foldl_cons, ih, count_foldl]
    simp only [List.map_cons, List.sum_cons, toiletsOf]
    ext <;> simp only [] <;> omega

theorem tiles_foldl (ts : List Toilet) (acc : List Tile) :
    ts.foldl (fun tiles t => tiles ++ [mkTile t]) acc = acc ++ ts.map mkTile := by
  induction ts generalizing acc with
  | nil => simp
  | cons t ts ih => rw [List.foldl_cons, ih]; simp

theorem sections_foldl (data : Obj (List Toilet)) (cs : List Coach) (acc : List CoachSection) :
    cs.foldl
        (fun acc coach =>
          let toilets := (data.get coach.id).getD []
          if toilets.length = 0 then acc
          else acc ++ [⟨coach.label, toilets.foldl (fun tiles t => tiles ++ [mkTile t]) []⟩])
        acc =
      acc ++ (cs.filter (fun c => toiletsOf data c ≠ [])).map
        (fun c => ⟨c.label, (toiletsOf data c).map mkTile⟩) := by
  induction cs generalizing acc with
  | nil => simp
  | cons c cs ih =>
    rw [List.foldl_cons, ih]
    by_cases h : toiletsOf data c = []
    · have h0 : ((data.get c.id).getD []).length = 0 := by
        rw [show (data.get c.id).getD [] = toiletsOf data c from rfl, h]; rfl
      simp [h0, h, List.filter_cons]
    · have h0 : ¬ ((data.get c.id).getD []).length = 0 := by
        rw [show (data.get c.id).getD [] = toiletsOf data c from rfl]
        exact fun e => h (List.length_eq_zero.1 e)
      have hf : List.filter (fun c => decide (toiletsOf data c ≠ [])) (c :: cs) =
          c :: List.filter (fun c => decide (toiletsOf data c ≠ [])) cs := by
        rw [List.filter_cons, if_pos (by simpa using h)]
      simp only [h0, if_false, tiles_foldl, List.nil_append]
      rw [hf, List.map_cons, List.append_assoc]
      rfl

theorem summaryCounts_eq (data : Obj (List Toilet)) :
    summaryCounts data = (vacantTotal data, occupiedTotal data) := by
  unfold summaryCounts vacantTotal occupiedTotal
  rw [summary_foldl]
  simp

/-- C9: `renderStatus` shows the dataset as it is: the vacant count is the
number of toilets with status vacant over the catalog coaches, the occupied
count is the number of all the others, and the sections are the catalog coaches
with at least one toilet, in catalog order, each with one tile per toilet; the
dataset is not changed. -/
theorem renderStatus_spec (st : Sim) :
    (renderStatus st).summaryVacant = vacantTotal st.toiletData ∧
      (renderStatus st).summaryOccupied = occupiedTotal st.toiletData ∧
      (renderStatus st).coachesScroll = expectedSections st.toiletData ∧
      (renderStatus st).coachesScroll.map (fun sec => sec.tiles.length) =
        ((COACHES.filter (fun c => toiletsOf st.toiletData c ≠ [])).map
          (fun c => (toiletsOf st.toiletData c).length)) ∧
      (renderStatus st).toiletData = st.toiletData := by
  have hs : (renderStatus st).coachesScroll = expectedSections st.toiletData := by
    unfold renderStatus coachSections expectedSections
    simp only
    rw [sections_foldl]
    simp
  refine ⟨?_, ?_, hs, ?_, rfl⟩
  · unfold renderStatus
    simp only [summaryCounts_eq]
  · unfold renderStatus
    simp only [summaryCounts_eq]
  · rw [hs]
    unfold expectedSections
    simp [List.map_map, Function.comp_def]

/-! ## Generating the dataset -/

theorem arrayFrom_foldl_length (rnd : Random) (coachId : Str) (l : List Nat)
    (acc : List Toilet × Nat) :
    (l.foldl (fun acc i => (acc.1 ++ [newToilet rnd coachId i acc.2], acc.2 + 1)) acc).1.length =
      acc.1.length + l.length := by
  induction l generalizing acc with
  | nil => simp
  | cons i l ih =>
    rw [List.foldl_cons, ih]
    simp only [List.length_append, List.length_cons, List.length_nil]
    omega

theorem arrayFrom_length (rnd : Random) (coachId : Str) (count draws : Nat) :
    (arrayFrom rnd coachId count draws).1.length = count := by
  unfold arrayFrom
  rw [arrayFrom_foldl_length]
  simp

theorem Obj.get_eq_none_of_not_mem_keys {α : Type} (o : Obj α) (k : Str)
    (h : k ∉ o.map Prod.fst) : o.get k = none := by
  apply Obj.get_eq_none
  intro v hv
  exact h (List.mem_map.2 ⟨(k, v), hv, rfl⟩)

theorem Obj.set_fresh {α : Type} (o : Obj α) (k : Str) (v : α) (hk : k ≠ protoKey)
    (h : k ∉ o.map Prod.fst) : o.set k v = o ++ [(k, v)] := by
  unfold Obj.set
  rw [if_neg hk, Obj.get_eq_none_of_not_mem_keys o k h]
  rfl

theorem Obj.get_map_values {α β : Type} (f : α → β) (o : Obj α) (k : Str) :
    Obj.get (o.map (fun kv => (kv.1, f kv.2))) k = (o.get k).map f := by
  induction o with
  | nil => rfl
  | cons kv rest ih =>
    obtain ⟨a, b⟩ := kv
    rw [List.map_cons, Obj.get_cons, Obj.get_cons, ih]
    split_ifs <;> rfl

/-- The loop of `generateToilets` over coaches with distinct ids that are not
yet keys appends one entry per coach, with 1 toilet for `PAN` and 2 otherwise. -/
theorem generate_counts (rnd : Random) (cs : List Coach)
    (hproto : ∀ c ∈ cs, c.id ≠ protoKey) (hnodup : (cs.map Coach.id).Nodup)
    (acc : Obj (List Toilet) × Nat) (hfresh : ∀ c ∈ cs, c.id ∉ acc.1.map Prod.fst) :
    toiletCounts
        (cs.foldl
          (fun acc coach =>
            let count := if coach.id = "PAN".toList then 1 else 2
            let made := arrayFrom rnd coach.id count acc.2
            (Obj.set acc.1 coach.id made.1, made.2))
          acc).1 =
      toiletCounts acc.1 ++ cs.map (fun c => (c.id, if c.id = "PAN".toList then 1 else 2)) := by
  induction cs generalizing acc with
  | nil => simp
  | cons c cs ih =>
    rw [List.foldl_cons]
    have hc : c.id ≠ protoKey := hproto c (List.mem_cons_self _ _)
    have hcf : c.id ∉ acc.1.map Prod.fst := hfresh c (List.mem_cons_self _ _)
    rw [List.map_cons, List.nodup_cons] at hnodup
    have hset := Obj.set_fresh acc.1 c.id
      (arrayFrom rnd c.id (if c.id = "PAN".toList then 1 else 2) acc.2).1 hc hcf
    rw [ih (fun c' hc' => hproto c' (List.mem_cons_of_mem _ hc')) hnodup.2]
    · simp only [hset, toiletCounts, List.map_append, List.map_cons, List.map_nil,
        arrayFrom_length, List.append_assoc, List.singleton_append]
    · intro c' hc'
      simp only [hset, List.map_append, List.map_cons, List.map_nil, List.mem_append,
        List.mem_singleton, not_or]
      refine ⟨hfresh c' (List.mem_cons_of_mem _ hc'), ?_⟩
      intro e
      exact hnodup.1 (by rw [← e]; exact List.mem_map_of_mem _ hc')

/-- The coaches and toilet counts of every generated dataset. -/
theorem generateToilets_counts (rnd : Random) (draws : Nat) :
    toiletCounts (generateToilets rnd draws).1 =
      [("H1".toList, 2), ("A1".toList, 2), ("A2".toList, 2), ("B1".toList, 2),
       ("B2".toList, 2), ("B3".toList, 2), ("S1".toList, 2), ("S2".toList, 2),
       ("S3".toList, 2), ("PAN".toList, 1)] := by
  unfold generateToilets
  rw [generate_counts rnd COACHES (by decide) (by decide) ([], draws)
    (fun c _ => List.not_mem_nil _)]
  show toiletCounts [] ++ _ = _
  decide

theorem countP_add_countP_not (ts : List Toilet) :
    ts.countP (fun t => t.status = vacant) + ts.countP (fun t => ¬ t.status = vacant) =
      ts.length := by
  induction ts with
  | nil => rfl
  | cons t ts ih =>
    rw [List.countP_cons, List.countP_cons, List.length_cons]
    by_cases h : t.status = vacant
    · have h1 : decide (t.status = vacant) = true := decide_eq_true h
      have h2 : decide (¬ t.status = vacant) = false := decide_eq_false (not_not.2 h)
      rw [h1, h2]
      simp only [if_true, Bool.false_eq_true, if_false]
      omega
    · have h1 : decide (t.status = vacant) = false := decide_eq_false h
      have h2 : decide (¬ t.status = vacant) = true := decide_eq_true h
      rw [h1, h2]
      simp only [if_true, Bool.false_eq_true, if_false]
      omega

theorem sum_map_add (cs : List Coach) (f g : Coach → Nat) :
    (cs.map f).sum + (cs.map g).sum = (cs.map (fun c => f c + g c)).sum := by
  induction cs with
  | nil => rfl
  | cons c cs ih =>
    simp only [List.map_cons, List.sum_cons]
    omega

/-- The two summary counts add up to the number of toilets of the catalog
coaches. -/
theorem totals_eq_counts (data : Obj (List Toilet)) :
    vacantTotal data + occupiedTotal data =
      (COACHES.map (fun c => ((toiletCounts data).get c.id).getD 0)).sum := by
  unfold vacantTotal occupiedTotal
  rw [sum_map_add]
  congr 1
  apply List.map_congr_left
  intro c _
  rw [countP_add_countP_not]
  unfold toiletCounts toiletsOf
  rw [Obj.get_map_values]
  cases data.get c.id <;> rfl

theorem goToStatus_data (rnd : Random) (trainNo : Str) (st : Sim) :
    (goToStatus rnd trainNo st).toiletData = (generateToilets rnd st.draws).1 ∧
      (goToStatus rnd trainNo st).summaryVacant =
        (summaryCounts (generateToilets rnd st.draws).1).1 ∧
      (goToStatus rnd trainNo st).summaryOccupied =
        (summaryCounts (generateToilets rnd st.draws).1).2 := by
  unfold goToStatus showToast startCountdown
  simp only
  rw [clearCountdownTimer_frame]
  simp only [setTimer, startClock, renderStatus, and_self]

/-- C6: whatever the random source returns, the dataset `generateToilets` makes
has the ten catalog coaches with 2 toilets each and 1 for `PAN`, 19 in all, and
the vacant and occupied counts `renderStatus` computes from it (also inside
`goToStatus`) add up to 19. -/
theorem generateToilets_nineteen (rnd : Random) (draws : Nat) (st : Sim) (trainNo : Str) :
    toiletCounts (generateToilets rnd draws).1 =
        [("H1".toList, 2), ("A1".toList, 2), ("A2".toList, 2), ("B1".toList, 2),
         ("B2".toList, 2), ("B3".toList, 2), ("S1".toList, 2), ("S2".toList, 2),
         ("S3".toList, 2), ("PAN".toList, 1)] ∧
      totalToilets (generateToilets rnd draws).1 = 19 ∧
      (renderStatus { st with toiletData := (generateToilets rnd draws).1 }).summaryVacant +
        (renderStatus { st with toiletData := (generateToilets rnd draws).1 }).summaryOccupied
        = 19 ∧
      (goToStatus rnd trainNo st).summaryVacant + (goToStatus rnd trainNo st).summaryOccupied
        = 19 := by
  have hsum : ∀ d, vacantTotal (generateToilets rnd d).1 +
      occupiedTotal (generateToilets rnd d).1 = 19 := by
    intro d
    rw [totals_eq_counts, generateToilets_counts]
    decide
  refine ⟨generateToilets_counts rnd draws, ?_, ?_, ?_⟩
  · have h : totalToilets (generateToilets rnd draws).1 =
        ((toiletCounts (generateToilets rnd draws).1).map Prod.snd).sum := by
      unfold totalToilets toiletCounts
      rw [List.map_map]
      rfl
    rw [h, generateToilets_counts]
    decide
  · have := hsum draws
    unfold renderStatus
    simp only [summaryCounts_eq]
    exact this
  · obtain ⟨-, h1, h2⟩ := goToStatus_data rnd trainNo st
    rw [h1, h2, summaryCounts_eq]
    exact hsum st.draws

/-! ## The periodic refresh -/

theorem validStatus_flip (t : Toilet) :
    validStatus { t with status := if t.status = vacant then occupied else vacant } = true := by
  unfold validStatus
  simp only
  split_ifs <;> decide

theorem flipToilets_foldl (rnd : Random) (ts : List Toilet) (acc : List Toilet × Nat) :
    idsAndTypes
        (ts.foldl
          (fun acc t =>
            (acc.1 ++ [if rnd acc.2 < 0.2 then
                { t with status := if t.status = vacant then occupied else vacant } else t],
             acc.2 + 1))
          acc).1 = idsAndTypes acc.1 ++ idsAndTypes ts ∧
      (acc.1.all validStatus = true → ts.all validStatus = true →
        (ts.foldl
          (fun acc t =>
            (acc.1 ++ [if rnd acc.2 < 0.2 then
                { t with status := if t.status = vacant then occupied else vacant } else t],
             acc.2 + 1))
          acc).1.all validStatus = true) := by
  induction ts generalizing acc with
  | nil => simp [idsAndTypes]
  | cons t ts ih =>
    rw [List.foldl_cons]
    obtain ⟨h1, h2⟩ := ih
      (acc.1 ++ [if rnd acc.2 < 0.2 then
          { t with status := if t.status = vacant then occupied else vacant } else t],
       acc.2 + 1)
    constructor
    · rw [h1]
      unfold idsAndTypes
      simp only [List.map_append, List.map_cons, List.map_nil, List.append_assoc,
        List.singleton_append]
      by_cases hr : rnd acc.2 < 0.2
      · rw [if_pos hr]
      · rw [if_neg hr]
    · intro ha hts
      rw [List.all_cons, Bool.and_eq_true] at hts
      apply h2 _ hts.2
      rw [List.all_append, Bool.and_eq_true]
      refine ⟨ha, ?_⟩
      rw [List.all_cons, List.all_nil, Bool.and_true]
      by_cases hr : rnd acc.2 < 0.2
      · rw [if_pos hr]
        exact validStatus_flip t
      · rw [if_neg hr]
        exact hts.1

/-- One coach: ids and types stay, valid statuses stay valid. -/
theorem flipToilets_keeps (rnd : Random) (ts : List Toilet) (draws : Nat) :
    idsAndTypes (flipToilets rnd ts draws).1 = idsAndTypes ts ∧
      (ts.all validStatus = true → (flipToilets rnd ts draws).1.all validStatus = true) := by
  obtain ⟨h1, h2⟩ := flipToilets_foldl rnd ts ([], draws)
  exact ⟨h1, fun h => h2 rfl h⟩

theorem Obj.map_fst_replace {α : Type} (o : Obj α) (k : Str) (v : α) :
    (o.replace k v).map Prod.fst = o.map Prod.fst := by
  unfold Obj.replace
  rw [List.map_map]
  apply List.map_congr_left
  intro kv _
  simp only [Function.comp]
  split_ifs with h
  · exact h.symm
  · rfl

theorem allValid_replace (data : Obj (List Toilet)) (k : Str) (ts : List Toilet)
    (hd : allValid data = true) (hts : ts.all validStatus = true) :
    allValid (data.replace k ts) = true := by
  unfold allValid Obj.replace at *
  rw [List.all_eq_true] at hd ⊢
  intro kv hkv
  obtain ⟨kv0, hmem, heq⟩ := List.mem_map.1 hkv
  split_ifs at heq with h
  · rw [← heq]; exact hts
  · rw [← heq]; exact hd kv0 hmem

/-- What a run of the outer loop keeps: the keys, the ids and types under every
key, and the validity of the statuses. -/
theorem flipAll_foldl (rnd : Random) (cs : List Coach) (acc : Obj (List Toilet) × Nat) :
    (cs.foldl
        (fun acc coach =>
          match Obj.get acc.1 coach.id with
          | none => acc
          | some ts =>
            let flipped := flipToilets rnd ts acc.2
            (Obj.replace acc.1 coach.id flipped.1, flipped.2))
        acc).1.map Prod.fst = acc.1.map Prod.fst ∧
      (∀ k,
        (Obj.get (cs.foldl
          (fun acc coach =>
            match Obj.get acc.1 coach.id with
            | none => acc
            | some ts =>
              let flipped := flipToilets rnd ts acc.2
              (Obj.replace acc.1 coach.id flipped.1, flipped.2))
          acc).1 k).map idsAndTypes = (Obj.get acc.1 k).map idsAndTypes) ∧
      (allValid acc.1 = true →
        allValid (cs.foldl
          (fun acc coach =>
            match Obj.get acc.1 coach.id with
            | none => acc
            | some ts =>
              let flipped := flipToilets rnd ts acc.2
              (Obj.replace acc.1 coach.id flipped.1, flipped.2))
          acc).1 = true) := by
  induction cs generalizing acc with
  | nil => exact ⟨rfl, fun _ => rfl, fun h => h⟩
  | cons c cs ih =>
    rw [List.foldl_cons]
    cases hget : Obj.get acc.1 c.id with
    | none => exact ih acc
    | some ts =>
      simp only
      obtain ⟨h1, h2, h3⟩ := ih
        (Obj.replace acc.1 c.id (flipToilets rnd ts acc.2).1, (flipToilets rnd ts acc.2).2)
      obtain ⟨hk, hv⟩ := flipToilets_keeps rnd ts acc.2
      refine ⟨?_, ?_, ?_⟩
      · rw [h1, Obj.map_fst_replace]
      · intro k
        rw [h2 k, Obj.get_replace]
        split_ifs with e
        · rw [← e, hget]
          simp only [Option.map_some', hk]
        · rfl
      · intro hvalid
        apply h3
        apply allValid_replace _ _ _ hvalid
        apply hv
        have hmem := Obj.mem_of_get acc.1 c.id ts hget
        unfold allValid at hvalid
        rw [List.all_eq_true] at hvalid
        exact hvalid _ hmem

theorem allValid_set (data : Obj (List Toilet)) (k : Str) (ts : List Toilet)
    (hd : allValid data = true) (hts : ts.all validStatus = true) :
    allValid (data.set k ts) = true := by
  unfold Obj.set
  split_ifs
  · exact hd
  · exact allValid_replace data k ts hd hts
  · unfold allValid at hd ⊢
    rw [List.all_append, hd]
    simp [hts]

theorem validStatus_newToilet (rnd : Random) (coachId : Str) (i draws : Nat) :
    validStatus (newToilet rnd coachId i draws) = true := by
  unfold validStatus newToilet
  simp only
  by_cases h : rnd draws < 0.6
  · rw [if_pos h]; decide
  · rw [if_neg h]; decide

theorem arrayFrom_foldl_valid (rnd : Random) (coachId : Str) (l : List Nat)
    (acc : List Toilet × Nat) (h : acc.1.all validStatus = true) :
    (l.foldl (fun acc i => (acc.1 ++ [newToilet rnd coachId i acc.2], acc.2 + 1)) acc).1.all
      validStatus = true := by
  induction l generalizing acc with
  | nil => exact h
  | cons i l ih =>
    rw [List.foldl_cons]
    apply ih
    rw [List.all_append, h]
    simp [validStatus_newToilet]

theorem generate_valid (rnd : Random) (cs : List Coach) (acc : Obj (List Toilet) × Nat)
    (h : allValid acc.1 = true) :
    allValid
        (cs.foldl
          (fun acc coach =>
            let count := if coach.id = "PAN".toList then 1 else 2
            let made := arrayFrom rnd coach.id count acc.2
            (Obj.set acc.1 coach.id made.1, made.2))
          acc).1 = true := by
  induction cs generalizing acc with
  | nil => exact h
  | cons c cs ih =>
    rw [List.foldl_cons]
    apply ih
    apply allValid_set _ _ _ h
    exact arrayFrom_foldl_valid rnd c.id _ ([], acc.2) rfl

/-- Every generated dataset has only the two statuses, so the refresh starts
from a dataset it keeps valid. -/
theorem generateToilets_allValid (rnd : Random) (draws : Nat) :
    allValid (generateToilets rnd draws).1 = true :=
  generate_valid rnd COACHES ([], draws) rfl

theorem refreshStatuses_data (rnd : Random) (st : Sim) :
    (refreshStatuses rnd st).toiletData = (flipAll rnd st.toiletData st.draws).1 := by
  simp only [refreshStatuses, showToast, setTimer, renderStatus]

/-- C7: when every status in the dataset is vacant or occupied, after any number
of runs of `refreshStatuses`, whatever the random source returns, every status
is still vacant or occupied, the coaches are the same, and under every coach
the list of toilet ids and types is what it was. -/
theorem refreshStatuses_invariant (rnd : Random) (st : Sim) (n : Nat)
    (h : allValid st.toiletData = true) :
    allValid ((refreshStatuses rnd)^[n] st).toiletData = true ∧
      ((refreshStatuses rnd)^[n] st).toiletData.map Prod.fst = st.toiletData.map Prod.fst ∧
      ∀ k, (((refreshStatuses rnd)^[n] st).toiletData.get k).map idsAndTypes =
        (st.toiletData.get k).map idsAndTypes := by
  induction n with
  | zero => exact ⟨h, rfl, fun _ => rfl⟩
  | succ n ih =>
    obtain ⟨h1, h2, h3⟩ := ih
    rw [Function.iterate_succ_apply', refreshStatuses_data]
    unfold flipAll
    obtain ⟨g1, g2, g3⟩ := flipAll_foldl rnd COACHES
      (((refreshStatuses rnd)^[n] st).toiletData, ((refreshStatuses rnd)^[n] st).draws)
    refine ⟨g3 h1, ?_, ?_⟩
    · rw [g1, h2]
    · intro k
      rw [g2 k, h3 k]

/-- C7 on a dataset with one vacant and one occupied toilet, after two runs in
which every draw is 0 (every toilet flips). -/
theorem refreshStatuses_invariant_witness :
    allValid sampleState.toiletData = true ∧
      allValid ((refreshStatuses (fun _ => 0))^[2] sampleState).toiletData = true ∧
      ((refreshStatuses (fun _ => 0))^[2] sampleState).toiletData.map Prod.fst =
        sampleState.toiletData.map Prod.fst ∧
      ∀ k, (((refreshStatuses (fun _ => 0))^[2] sampleState).toiletData.get k).map idsAndTypes =
        (sampleState.toiletData.get k).map idsAndTypes :=
  ⟨by decide, refreshStatuses_invariant (fun _ => 0) sampleState 2 (by decide)⟩

/-! ## The countdown -/

theorem refreshStatuses_countdownVal (rnd : Random) (st : Sim) :
    (refreshStatuses rnd st).countdownVal = st.countdownVal := by
  simp only [refreshStatuses, showToast, setTimer, renderStatus]

theorem refreshStatuses_nextHandle (rnd : Random) (st : Sim) :
    (refreshStatuses rnd st).nextHandle = st.nextHandle + 1 := by
  simp only [refreshStatuses, showToast, setTimer, renderStatus]

theorem startCountdown_countdownVal (st : Sim) : (startCountdown st).countdownVal = 30 := by
  unfold startCountdown
  simp only
  rw [clearCountdownTimer_frame]
  simp only [setTimer]

/-- The callback when more than one second is left: the value and the display
go down by one and nothing else happens. -/
theorem countdownTick_of_gt (rnd : Random) (st : Sim) (h : 1 < st.countdownVal) :
    countdownTick rnd st =
      { st with countdownVal := st.countdownVal - 1, countdownEl := st.countdownVal - 1 } := by
  unfold countdownTick
  simp only
  rw [if_neg (by omega)]

/-- The callback when one second or less is left: the display shows the
decremented value, the value is set to 30 and `refreshStatuses` runs. -/
theorem countdownTick_of_le (rnd : Random) (st : Sim) (h : st.countdownVal ≤ 1) :
    countdownTick rnd st =
      refreshStatuses rnd { st with countdownVal := 30, countdownEl := st.countdownVal - 1 } := by
  unfold countdownTick
  simp only
  rw [if_pos (by omega)]

/-- The stored value after `k` callbacks. -/
theorem countdownVal_iterate (rnd : Random) (st : Sim) (k : Nat) :
    ((countdownTick rnd)^[k] (startCountdown st)).countdownVal = 30 - ((k % 30 : Nat) : Int) := by
  induction k with
  | zero => simpa using startCountdown_countdownVal st
  | succ k ih =>
    rw [Function.iterate_succ_apply']
    by_cases h : k % 30 = 29
    · have hle : ((countdownTick rnd)^[k] (startCountdown st)).countdownVal ≤ 1 := by
        rw [ih, h]; norm_num
      rw [countdownTick_of_le rnd _ hle, refreshStatuses_countdownVal]
      have : (k + 1) % 30 = 0 := by omega
      rw [this]
      rfl
    · have hlt : 1 < ((countdownTick rnd)^[k] (startCountdown st)).countdownVal := by
        rw [ih]
        have : k % 30 < 29 := by omega
        omega
      rw [countdownTick_of_gt rnd _ hlt]
      simp only
      rw [ih]
      have : (k + 1) % 30 = k % 30 + 1 := by omega
      rw [this]
      push_cast
      ring

/-- C10: `startCountdown` sets the value to 30; the `n`-th callback after it
(`n ≥ 1`, nothing in between) runs `refreshStatuses` exactly when `n` is a
multiple of 30, and then the value is 30 again; otherwise it only lowers the
value and the display by one; the value stored after the callback is
`30 - n mod 30`, between 1 and 30. -/
theorem countdown_cycle (rnd : Random) (st : Sim) (n : Nat) (hn : 1 ≤ n) :
    (startCountdown st).countdownVal = 30 ∧
    (n % 30 = 0 ↔
      (countdownTick rnd)^[n] (startCountdown st) =
        refreshStatuses rnd
          { (countdownTick rnd)^[n - 1] (startCountdown st) with
            countdownVal := 30, countdownEl := 0 }) ∧
    (n % 30 ≠ 0 ↔
      (countdownTick rnd)^[n] (startCountdown st) =
        { (countdownTick rnd)^[n - 1] (startCountdown st) with
          countdownVal := ((countdownTick rnd)^[n - 1] (startCountdown st)).countdownVal - 1
          countdownEl := ((countdownTick rnd)^[n - 1] (startCountdown st)).countdownVal - 1 }) ∧
    ((countdownTick rnd)^[n] (startCountdown st)).countdownVal = 30 - ((n % 30 : Nat) : Int) ∧
    1 ≤ ((countdownTick rnd)^[n] (startCountdown st)).countdownVal ∧
    ((countdownTick rnd)^[n] (startCountdown st)).countdownVal ≤ 30 := by
  obtain ⟨m, rfl⟩ : ∃ m, n = m + 1 := ⟨n - 1, by omega⟩
  have hprev := countdownVal_iterate rnd st m
  have hval := countdownVal_iterate rnd st (m + 1)
  rw [Nat.add_sub_cancel, Function.iterate_succ_apply']
  rw [Function.iterate_succ_apply'] at hval
  have hmod : (m + 1) % 30 < 30 := Nat.mod_lt _ (by norm_num)
  refine ⟨startCountdown_countdownVal st, ?_, ?_, hval, by omega, by omega⟩
  · constructor
    · intro h0
      have h29 : m % 30 = 29 := by omega
      have hv : ((countdownTick rnd)^[m] (startCountdown st)).countdownVal = 1 := by
        rw [hprev, h29]; norm_num
      rw [countdownTick_of_le rnd _ (by omega), hv]
      rfl
    · intro heq
      by_contra h0
      have hlt : 1 < ((countdownTick rnd)^[m] (startCountdown st)).countdownVal := by
        rw [hprev]
        omega
      rw [countdownTick_of_gt rnd _ hlt] at heq
      have hh := congrArg Sim.nextHandle heq
      rw [refreshStatuses_nextHandle] at hh
      simp only at hh
      omega
  · constructor
    · intro h0
      have hlt : 1 < ((countdownTick rnd)^[m] (startCountdown st)).countdownVal := by
        rw [hprev]
        omega
      rw [countdownTick_of_gt rnd _ hlt]
    · intro heq h0
      have h29 : m % 30 = 29 := by omega
      have hle : ((countdownTick rnd)^[m] (startCountdown st)).countdownVal ≤ 1 := by
        rw [hprev, h29]; norm_num
      rw [countdownTick_of_le rnd _ hle] at heq
      have hh := congrArg Sim.nextHandle heq
      rw [refreshStatuses_nextHandle] at hh
      simp only at hh
      omega

/-- C10 at the thirtieth callback from the initial state. -/
theorem countdown_cycle_witness :
    1 ≤ 30 ∧
    (startCountdown Sim.init).countdownVal = 30 ∧
    (30 % 30 = 0 ↔
      (countdownTick (fun _ => 0))^[30] (startCountdown Sim.init) =
        refreshStatuses (fun _ => 0)
          { (countdownTick (fun _ => 0))^[30 - 1] (startCountdown Sim.init) with
            countdownVal := 30, countdownEl := 0 }) ∧
    (30 % 30 ≠ 0 ↔
      (countdownTick (fun _ => 0))^[30] (startCountdown Sim.init) =
        { (countdownTick (fun _ => 0))^[30 - 1] (startCountdown Sim.init) with
          countdownVal :=
            ((countdownTick (fun _ => 0))^[30 - 1] (startCountdown Sim.init)).countdownVal - 1
          countdownEl :=
            ((countdownTick (fun _ => 0))^[30 - 1] (startCountdown Sim.init)).countdownVal - 1 }) ∧
    ((countdownTick (fun _ => 0))^[30] (startCountdown Sim.init)).countdownVal =
      30 - ((30 % 30 : Nat) : Int) ∧
    1 ≤ ((countdownTick (fun _ => 0))^[30] (startCountdown Sim.init)).countdownVal ∧
    ((countdownTick (fun _ => 0))^[30] (startCountdown Sim.init)).countdownVal ≤ 30 :=
  ⟨by decide, countdown_cycle (fun _ => 0) Sim.init 30 (by decide)⟩

/-! ## Timers across navigation -/

theorem OkT_init : TimersOk Sim.init := by
  unfold TimersOk OkT Sim.init
  simp

/-- Registering a timer that is not a countdown keeps the shape. -/
theorem OkT_append (l : List Timer) (n : Nat) (cd : Option Nat) (k : TimerKind)
    (hk : k ≠ .countdown) (h : OkT l n cd) : OkT (l ++ [⟨n, k⟩]) (n + 1) cd := by
  obtain ⟨h1, h2, h3, h4, h5, h6⟩ := h
  refine ⟨?_, Nat.succ_pos _, ?_, ?_, ?_, ?_⟩
  · rw [List.map_append, List.nodup_append]
    refine ⟨h1, by simp, ?_⟩
    intro a ha hb
    simp only [List.map_cons, List.map_nil, List.mem_singleton] at hb
    obtain ⟨t, ht, rfl⟩ := List.mem_map.1 ha
    have := (h3 t ht).2
    omega
  · intro t ht
    rcases List.mem_append.1 ht with ht | ht
    · have := h3 t ht
      omega
    · rw [List.mem_singleton] at ht
      subst ht
      exact ⟨h2, Nat.lt_succ_self _⟩
  · intro h hh
    have := h4 h hh
    omega
  · intro h hh t ht hth
    rcases List.mem_append.1 ht with ht | ht
    · exact h5 h hh t ht hth
    · rw [List.mem_singleton] at ht
      subst ht
      have := h4 h hh
      simp only at hth
      omega
  · intro t ht htk
    rcases List.mem_append.1 ht with ht | ht
    · exact h6 t ht htk
    · rw [List.mem_singleton] at ht
      subst ht
      exact absurd htk hk

/-- Removing timers keeps the shape. -/
theorem OkT_filter (l : List Timer) (n : Nat) (cd : Option Nat) (p : Timer → Bool)
    (h : OkT l n cd) : OkT (l.filter p) n cd := by
  obtain ⟨h1, h2, h3, h4, h5, h6⟩ := h
  refine ⟨?_, h2, ?_, h4, ?_, ?_⟩
  · exact List.Nodup.sublist ((List.filter_sublist l).map _) h1
  · intro t ht
    exact h3 t (List.mem_filter.1 ht).1
  · intro h hh t ht
    exact h5 h hh t (List.mem_filter.1 ht).1
  · intro t ht
    exact h6 t (List.mem_filter.1 ht).1

/-- Dropping the countdown timers and forgetting the handle keeps the shape. -/
theorem OkT_stop (l : List Timer) (n : Nat) (cd : Option Nat) (h : OkT l n cd) :
    OkT (l.filter (fun t => t.kind ≠ .countdown)) n none := by
  obtain ⟨h1, h2, h3, h4, h5, h6⟩ := OkT_filter l n cd (fun t => t.kind ≠ .countdown) h
  refine ⟨h1, h2, h3, ?_, ?_, ?_⟩
  · intro h hh
    cases hh
  · intro h hh
    cases hh
  · intro t ht htk
    have := (List.mem_filter.1 ht).2
    simp only [ne_eq, decide_not, Bool.not_eq_true', decide_eq_false_iff_not] at this
    exact absurd htk this

/-- Dropping the countdown timers, registering a new one and recording its
handle keeps the shape. -/
theorem OkT_start (l : List Timer) (n : Nat) (cd : Option Nat) (h : OkT l n cd) :
    OkT (l.filter (fun t => t.kind ≠ .countdown) ++ [⟨n, .countdown⟩]) (n + 1) (some n) := by
  obtain ⟨h1, h2, h3, -, -, h6⟩ := OkT_stop l n cd h
  refine ⟨?_, Nat.succ_pos _, ?_, ?_, ?_, ?_⟩
  · rw [List.map_append, List.nodup_append]
    refine ⟨h1, by simp, ?_⟩
    intro a ha hb
    simp only [List.map_cons, List.map_nil, List.mem_singleton] at hb
    obtain ⟨t, ht, rfl⟩ := List.mem_map.1 ha
    have := (h3 t ht).2
    omega
  · intro t ht
    rcases List.mem_append.1 ht with ht | ht
    · have := h3 t ht
      omega
    · rw [List.mem_singleton] at ht
      subst ht
      exact ⟨h2, Nat.lt_succ_self _⟩
  · intro h hh
    cases hh
    exact Nat.lt_succ_self _
  · intro h hh t ht hth
    cases hh
    rcases List.mem_append.1 ht with ht | ht
    · have := (h3 t ht).2
      omega
    · rw [List.mem_singleton] at ht
      subst ht
      rfl
  · intro t ht htk
    rcases List.mem_append.1 ht with ht | ht
    · exact absurd (h6 t ht htk) (by simp)
    · rw [List.mem_singleton] at ht
      subst ht
      rfl

/-- In a state of the reachable shape the guarded `clearInterval` removes
exactly the countdown timers. -/
theorem clearCountdownTimer_timers (st : Sim) (h : TimersOk st) :
    (clearCountdownTimer st).timers = st.timers.filter (fun t => t.kind ≠ .countdown) := by
  obtain ⟨-, -, h3, -, h5, h6⟩ := h
  unfold clearCountdownTimer
  cases hcd : st.countdownTimer with
  | none =>
    simp only
    symm
    rw [List.filter_eq_self]
    intro t ht
    have : ¬ t.kind = .countdown := fun e => by
      have := h6 t ht e
      rw [hcd] at this
      cases this
    simpa using this
  | some c =>
    simp only
    split_ifs with h0
    · symm
      rw [List.filter_eq_self]
      intro t ht
      have : ¬ t.kind = .countdown := fun e => by
        have h' := h6 t ht e
        rw [hcd] at h'
        have := (h3 t ht).1
        have hc : c = t.handle := Option.some.inj h'
        omega
      simpa using this
    · unfold clearInterval
      simp only
      apply List.filter_congr
      intro t ht
      by_cases e : t.kind = .countdown
      · have h' := h6 t ht e
        rw [hcd] at h'
        have hc : c = t.handle := Option.some.inj h'
        simp [e, hc]
      · have : ¬ t.handle = c := fun e' => e (h5 c hcd t ht e')
        simp [e, this]

theorem filter_kind_filter (l : List Timer) (k : TimerKind) (p : Timer → Bool)
    (hp : ∀ t ∈ l, t.kind = k → p t = true) :
    (l.filter p).filter (fun t => t.kind = k) = l.filter (fun t => t.kind = k) := by
  rw [List.filter_filter]
  apply List.filter_congr
  intro t ht
  by_cases e : t.kind = k
  · simp [e, hp t ht e]
  · simp [e]

theorem TimersOk_setTimer (k : TimerKind) (hk : k ≠ .countdown) (st : Sim) (h : TimersOk st) :
    TimersOk (setTimer k st) :=
  OkT_append st.timers st.nextHandle st.countdownTimer k hk h

theorem startCountdown_view (st : Sim) (h : TimersOk st) :
    (startCountdown st).timers =
        st.timers.filter (fun t => t.kind ≠ .countdown) ++ [⟨st.nextHandle, .countdown⟩] ∧
      (startCountdown st).nextHandle = st.nextHandle + 1 ∧
      (startCountdown st).countdownTimer = some st.nextHandle := by
  have ht := clearCountdownTimer_timers st h
  unfold startCountdown
  simp only
  rw [clearCountdownTimer_frame]
  simp only [setTimer, ht, and_self]

theorem TimersOk_startCountdown (st : Sim) (h : TimersOk st) : TimersOk (startCountdown st) := by
  obtain ⟨h1, h2, h3⟩ := startCountdown_view st h
  unfold TimersOk
  rw [h1, h2, h3]
  exact OkT_start _ _ _ h

theorem stopCountdown_view (st : Sim) (h : TimersOk st) :
    (stopCountdown st).timers = st.timers.filter (fun t => t.kind ≠ .countdown) ∧
      (stopCountdown st).nextHandle = st.nextHandle ∧
      (stopCountdown st).countdownTimer = none := by
  have ht := clearCountdownTimer_timers st h
  unfold stopCountdown
  rw [clearCountdownTimer_frame]
  simp only [ht, and_self]

theorem goBack_view (st : Sim) (h : TimersOk st) :
    (goBack st).timers = st.timers.filter (fun t => t.kind ≠ .countdown) ∧
      (goBack st).nextHandle = st.nextHandle ∧
      (goBack st).countdownTimer = none := by
  have h' : TimersOk { st with screenStatusHidden := true, screenEntryHidden := false } := h
  obtain ⟨h1, h2, h3⟩ := stopCountdown_view _ h'
  unfold goBack
  simp only
  exact ⟨h1, h2, h3⟩

theorem TimersOk_goBack (st : Sim) (h : TimersOk st) : TimersOk (goBack st) := by
  obtain ⟨h1, h2, h3⟩ := goBack_view st h
  unfold TimersOk
  rw [h1, h2, h3]
  exact OkT_stop _ _ _ h

theorem TimersOk_showToast (msg : Str) (st : Sim) (h : TimersOk st) :
    TimersOk (showToast msg st) :=
  TimersOk_setTimer .toast (by decide) { st with toastText := msg, toastShow := true } h

theorem TimersOk_refreshStatuses (rnd : Random) (st : Sim) (h : TimersOk st) :
    TimersOk (refreshStatuses rnd st) := by
  unfold refreshStatuses
  simp only
  apply TimersOk_showToast
  exact h

theorem TimersOk_countdownTick (rnd : Random) (st : Sim) (h : TimersOk st) :
    TimersOk (countdownTick rnd st) := by
  unfold countdownTick
  simp only
  split_ifs
  · apply TimersOk_refreshStatuses
    exact h
  · exact h

theorem TimersOk_goToStatus (rnd : Random) (trainNo : Str) (st : Sim) (h : TimersOk st) :
    TimersOk (goToStatus rnd trainNo st) := by
  unfold goToStatus
  simp only
  apply TimersOk_showToast
  apply TimersOk_startCountdown
  apply TimersOk_setTimer .clock (by decide)
  unfold TimersOk at h ⊢
  simp only [renderStatus]
  exact h

theorem TimersOk_fireTimer (rnd : Random) (handle : Nat) (st : Sim) (h : TimersOk st) :
    TimersOk (fireTimer rnd handle st) := by
  unfold fireTimer
  cases st.timers.find? (fun t => t.handle = handle) with
  | none => exact h
  | some t =>
    simp only
    cases t.kind with
    | clock => exact h
    | countdown => exact TimersOk_countdownTick rnd st h
    | toast => exact OkT_filter _ _ _ _ h

/-- Every event keeps the shape of the timer table. -/
theorem TimersOk_step (rnd : Random) (st : Sim) (ev : Event) (h : TimersOk st) :
    TimersOk (step rnd st ev) := by
  cases ev with
  | goToStatus trainNo => exact TimersOk_goToStatus rnd trainNo st h
  | goBack => exact TimersOk_goBack st h
  | timer handle => exact TimersOk_fireTimer rnd handle st h

theorem timersOf_clock_enter (msg : Str) (st : Sim) (h : TimersOk st) :
    timersOf .clock (showToast msg (startCountdown (startClock st))) =
      timersOf .clock st ++ [⟨st.nextHandle, .clock⟩] := by
  have hY : TimersOk (startClock st) := TimersOk_setTimer .clock (by decide) st h
  obtain ⟨v1, -, -⟩ := startCountdown_view (startClock st) hY
  unfold timersOf showToast
  simp only [setTimer]
  rw [v1]
  simp only [startClock, setTimer, List.filter_append]
  rw [filter_kind_filter _ _ _ (fun t _ e => by simp [e]),
    filter_kind_filter _ _ _ (fun t _ e => by simp [e])]
  simp

theorem timersOf_clock_goToStatus (rnd : Random) (trainNo : Str) (st : Sim) (h : TimersOk st) :
    timersOf .clock (goToStatus rnd trainNo st) =
      timersOf .clock st ++ [⟨st.nextHandle, .clock⟩] := by
  unfold goToStatus
  simp only
  rw [timersOf_clock_enter]
  · simp only [timersOf, renderStatus]
  · unfold TimersOk at h ⊢
    simp only [renderStatus]
    exact h

theorem timersOf_goBack (st : Sim) (h : TimersOk st) :
    timersOf .clock (goBack st) = timersOf .clock st ∧
      timersOf .countdown (goBack st) = [] ∧ (goBack st).countdownTimer = none := by
  obtain ⟨h1, -, h3⟩ := goBack_view st h
  unfold timersOf
  rw [h1]
  refine ⟨filter_kind_filter _ _ _ (fun t _ e => by simp [e]), ?_, h3⟩
  rw [List.filter_filter, List.filter_eq_nil_iff]
  intro t _
  by_cases e : t.kind = .countdown <;> simp [e]

theorem timersOf_clock_countdownTick (rnd : Random) (st : Sim) :
    timersOf .clock (countdownTick rnd st) = timersOf .clock st := by
  unfold countdownTick
  simp only
  split_ifs
  · simp only [timersOf, refreshStatuses, showToast, setTimer, renderStatus, List.filter_append]
    simp
  · rfl

theorem timersOf_clock_fireTimer (rnd : Random) (handle : Nat) (st : Sim) (h : TimersOk st) :
    timersOf .clock (fireTimer rnd handle st) = timersOf .clock st := by
  unfold fireTimer
  cases hf : st.timers.find? (fun t => t.handle = handle) with
  | none => rfl
  | some t =>
    simp only
    cases hk : t.kind with
    | clock => rfl
    | countdown => exact timersOf_clock_countdownTick rnd st
    | toast =>
      simp only [timersOf, clearInterval]
      apply filter_kind_filter
      intro t' ht' e
      have hmem : t ∈ st.timers := List.mem_of_find?_eq_some hf
      have hh : t.handle = handle := by simpa using List.find?_some hf
      have hne : ¬ t'.handle = handle := by
        intro e'
        have : t' = t := List.inj_on_of_nodup_map h.1 ht' hmem (by rw [e', hh])
        rw [this, hk] at e
        cases e
      simpa using hne

/-- The clock timers after one event. -/
theorem timersOf_clock_step (rnd : Random) (st : Sim) (ev : Event) (h : TimersOk st) :
    (timersOf .clock (step rnd st ev)).length =
      (timersOf .clock st).length + entries [ev] := by
  cases ev with
  | goToStatus trainNo =>
    show (timersOf .clock (goToStatus rnd trainNo st)).length = _
    rw [timersOf_clock_goToStatus rnd trainNo st h]
    simp [entries]
  | goBack =>
    show (timersOf .clock (goBack st)).length = _
    rw [(timersOf_goBack st h).1]
    simp [entries]
  | timer handle =>
    show (timersOf .clock (fireTimer rnd handle st)).length = _
    rw [timersOf_clock_fireTimer rnd handle st h]
    simp [entries]

/-- After any sequence of events the timer table has the reachable shape, and
one clock timer is active for every `goToStatus` there has been: none is ever
cancelled. -/
theorem clock_timers_run (rnd : Random) (evs : List Event) (st : Sim) (h : TimersOk st) :
    TimersOk (run rnd st evs) ∧
      (timersOf .clock (run rnd st evs)).length = (timersOf .clock st).length + entries evs := by
  induction evs generalizing st with
  | nil => exact ⟨h, rfl⟩
  | cons ev evs ih =>
    obtain ⟨h1, h2⟩ := ih (step rnd st ev) (TimersOk_step rnd st ev h)
    refine ⟨h1, ?_⟩
    show (timersOf .clock (run rnd (step rnd st ev) evs)).length = _
    rw [h2, timersOf_clock_step rnd st ev h]
    unfold entries
    rw [List.countP_cons, List.countP_cons, List.countP_nil]
    omega

/-- In every state reached from the initial one, `goBack` cancels the countdown
timer and forgets its handle, and leaves every clock timer running: as many as
there have been `goToStatus` events. -/
theorem goBack_after_run (rnd : Random) (evs : List Event) :
    timersOf .countdown (run rnd Sim.init (evs ++ [.goBack])) = [] ∧
      (run rnd Sim.init (evs ++ [.goBack])).countdownTimer = none ∧
      (timersOf .clock (run rnd Sim.init (evs ++ [.goBack]))).length = entries evs := by
  obtain ⟨h1, h2⟩ := clock_timers_run rnd evs Sim.init OkT_init
  have hrun : run rnd Sim.init (evs ++ [.goBack]) = goBack (run rnd Sim.init evs) := by
    unfold run
    rw [List.foldl_append]
    rfl
  obtain ⟨g1, g2, g3⟩ := timersOf_goBack _ h1
  rw [hrun, g1, h2]
  refine ⟨g2, g3, ?_⟩
  simp [timersOf, Sim.init]

/-- C8 at the sequence `goToStatus('12301')`, `goBack()` from the initial state:
the countdown timer (handle 2) is cancelled and the handle forgotten; the clock
interval of `startClock` (handle 1) is still active, next to the pending toast
timeout. -/
theorem goBack_leaves_clock_running :
    (run (fun _ => 0) Sim.init [.goToStatus "12301".toList, .goBack]).timers =
        [⟨1, .clock⟩, ⟨3, .toast⟩] ∧
      (run (fun _ => 0) Sim.init [.goToStatus "12301".toList, .goBack]).countdownTimer = none ∧
      timersOf .clock (run (fun _ => 0) Sim.init [.goToStatus "12301".toList, .goBack]) =
        [⟨1, .clock⟩] := by
  simp [run, step, goBack, stopCountdown, clearCountdownTimer, goToStatus, showToast,
    startCountdown, startClock, setTimer, renderStatus, clearInterval, Sim.init, timersOf]

/-! ## The countdown among the other timers -/

/-- One callback moves the stored value from `30 - k mod 30` to
`30 - (k + 1) mod 30`. -/
theorem countdownTick_val (rnd : Random) (st : Sim) (k : Nat)
    (h : st.countdownVal = 30 - ((k % 30 : Nat) : Int)) :
    (countdownTick rnd st).countdownVal = 30 - (((k + 1) % 30 : Nat) : Int) := by
  by_cases h29 : k % 30 = 29
  · have hle : st.countdownVal ≤ 1 := by rw [h, h29]; norm_num
    rw [countdownTick_of_le rnd _ hle, refreshStatuses_countdownVal]
    have : (k + 1) % 30 = 0 := by omega
    rw [this]
    rfl
  · have hlt : 1 < st.countdownVal := by
      rw [h]
      have : k % 30 < 29 := by omega
      omega
    rw [countdownTick_of_gt rnd _ hlt]
    simp only
    rw [h]
    have : (k + 1) % 30 = k % 30 + 1 := by omega
    rw [this]
    push_cast
    ring

theorem countdownTick_view (rnd : Random) (st : Sim) :
    (countdownTick rnd st).countdownTimer = st.countdownTimer ∧
      ∀ t ∈ st.timers, t ∈ (countdownTick rnd st).timers := by
  unfold countdownTick
  simp only
  split_ifs
  · simp only [refreshStatuses, showToast, setTimer, renderStatus, true_and]
    intro t ht
    exact List.mem_append_left _ ht
  · exact ⟨rfl, fun t ht => ht⟩

theorem CountdownLive_startCountdown (st : Sim) (h : TimersOk st) :
    CountdownLive st.nextHandle (startCountdown st) := by
  obtain ⟨h1, -, h3⟩ := startCountdown_view st h
  refine ⟨TimersOk_startCountdown st h, h3, ?_⟩
  rw [h1]
  exact List.mem_append_right _ (List.mem_singleton.2 rfl)

/-- When the countdown's own handle comes due, its callback runs. -/
theorem fireTimer_countdown (rnd : Random) (c : Nat) (st : Sim) (h : CountdownLive c st) :
    fireTimer rnd c st = countdownTick rnd st := by
  obtain ⟨hok, hcd, hmem⟩ := h
  unfold fireTimer
  cases hf : st.timers.find? (fun t => t.handle = c) with
  | none =>
    have := List.find?_eq_none.1 hf _ hmem
    simp at this
  | some t =>
    have ht : t ∈ st.timers := List.mem_of_find?_eq_some hf
    have hh : t.handle = c := by simpa using List.find?_some hf
    have hk : t.kind = .countdown := hok.2.2.2.2.1 c hcd t ht hh
    simp only [hk]

/-- When any other handle comes due, the stored value stays and the countdown
keeps running. -/
theorem fireTimer_other (rnd : Random) (c handle : Nat) (st : Sim) (h : CountdownLive c st)
    (hne : handle ≠ c) :
    (fireTimer rnd handle st).countdownVal = st.countdownVal ∧
      CountdownLive c (fireTimer rnd handle st) := by
  obtain ⟨hok, hcd, hmem⟩ := h
  unfold fireTimer
  cases hf : st.timers.find? (fun t => t.handle = handle) with
  | none => exact ⟨rfl, hok, hcd, hmem⟩
  | some t =>
    have ht : t ∈ st.timers := List.mem_of_find?_eq_some hf
    have hh : t.handle = handle := by simpa using List.find?_some hf
    simp only
    cases hk : t.kind with
    | clock => exact ⟨rfl, hok, hcd, hmem⟩
    | countdown =>
      have h' := hok.2.2.2.2.2 t ht hk
      rw [hcd] at h'
      have : c = t.handle := Option.some.inj h'
      omega
    | toast =>
      refine ⟨rfl, OkT_filter _ _ _ _ hok, hcd, ?_⟩
      simp only [clearInterval]
      rw [List.mem_filter]
      refine ⟨hmem, ?_⟩
      simpa using fun e => hne e.symm

theorem CountdownLive_countdownTick (rnd : Random) (c : Nat) (st : Sim)
    (h : CountdownLive c st) : CountdownLive c (countdownTick rnd st) := by
  obtain ⟨hok, hcd, hmem⟩ := h
  obtain ⟨v1, v2⟩ := countdownTick_view rnd st
  exact ⟨TimersOk_countdownTick rnd st hok, by rw [v1, hcd], v2 _ hmem⟩

theorem countdown_run (rnd : Random) (c : Nat) (evs : List Event) :
    ∀ (st : Sim) (k : Nat), timerOnly evs = true → CountdownLive c st →
      st.countdownVal = 30 - ((k % 30 : Nat) : Int) →
      CountdownLive c (run rnd st evs) ∧
        (run rnd st evs).countdownVal = 30 - (((k + firings c evs) % 30 : Nat) : Int) := by
  induction evs with
  | nil =>
    intro st k _ hl hv
    exact ⟨hl, by simpa [firings] using hv⟩
  | cons ev evs ih =>
    intro st k honly hl hv
    unfold timerOnly at honly
    rw [List.all_cons, Bool.and_eq_true] at honly
    cases ev with
    | goToStatus trainNo => exact absurd honly.1 (by simp)
    | goBack => exact absurd honly.1 (by simp)
    | timer handle =>
      show CountdownLive c (run rnd (fireTimer rnd handle st) evs) ∧
        (run rnd (fireTimer rnd handle st) evs).countdownVal = _
      by_cases e : handle = c
      · subst e
        rw [fireTimer_countdown rnd handle st hl]
        obtain ⟨g1, g2⟩ := ih (countdownTick rnd st) (k + 1) honly.2
          (CountdownLive_countdownTick rnd handle st hl) (countdownTick_val rnd st k hv)
        refine ⟨g1, ?_⟩
        rw [g2]
        have : firings handle (Event.timer handle :: evs) = firings handle evs + 1 := by
          unfold firings
          rw [List.countP_cons]
          simp
        rw [this]
        congr 3
        omega
      · obtain ⟨f1, f2⟩ := fireTimer_other rnd c handle st hl e
        obtain ⟨g1, g2⟩ := ih (fireTimer rnd handle st) k honly.2 f2 (by rw [f1]; exact hv)
        refine ⟨g1, ?_⟩
        rw [g2]
        have : firings c (Event.timer handle :: evs) = firings c evs := by
          unfold firings
          rw [List.countP_cons]
          simp [e]
        rw [this]

/-- The countdown among the other timers: from a reachable timer table, after
`startCountdown` and any sequence of timers coming due (clock, toast and
countdown, no train selection and no exit), the stored value is
`30 - n mod 30` where `n` counts the countdown callbacks so far, and the next
countdown callback runs `refreshStatuses` exactly when it is the 30th, 60th, ...
one. -/
theorem countdown_interleaved (rnd : Random) (st : Sim) (evs : List Event)
    (hok : TimersOk st) (honly : timerOnly evs = true) :
    (run rnd (startCountdown st) evs).countdownVal =
        30 - ((firings st.nextHandle evs % 30 : Nat) : Int) ∧
      run rnd (startCountdown st) (evs ++ [.timer st.nextHandle]) =
        countdownTick rnd (run rnd (startCountdown st) evs) ∧
      ((firings st.nextHandle evs + 1) % 30 = 0 ↔
        run rnd (startCountdown st) (evs ++ [.timer st.nextHandle]) =
          refreshStatuses rnd
            { run rnd (startCountdown st) evs with countdownVal := 30, countdownEl := 0 }) := by
  obtain ⟨hl, hv⟩ := countdown_run rnd st.nextHandle evs (startCountdown st) 0 honly
    (CountdownLive_startCountdown st hok) (by rw [startCountdown_countdownVal]; rfl)
  rw [Nat.zero_add] at hv
  have hrun : run rnd (startCountdown st) (evs ++ [.timer st.nextHandle]) =
      countdownTick rnd (run rnd (startCountdown st) evs) := by
    unfold run
    rw [List.foldl_append]
    exact fireTimer_countdown rnd st.nextHandle _ hl
  refine ⟨hv, hrun, ?_⟩
  rw [hrun]
  have hmod : firings st.nextHandle evs % 30 < 30 := Nat.mod_lt _ (by norm_num)
  constructor
  · intro h0
    have h29 : firings st.nextHandle evs % 30 = 29 := by omega
    have hv1 : (run rnd (startCountdown st) evs).countdownVal = 1 := by
      rw [hv, h29]; norm_num
    rw [countdownTick_of_le rnd _ (by omega), hv1]
    rfl
  · intro heq
    by_contra h0
    have hlt : 1 < (run rnd (startCountdown st) evs).countdownVal := by
      rw [hv]
      omega
    rw [countdownTick_of_gt rnd _ hlt] at heq
    have hh := congrArg Sim.nextHandle heq
    rw [refreshStatuses_nextHandle] at hh
    simp only at hh
    omega

end TrainFresh
